import Mathlib

/-!
# subscription-service: month parsing, the Total aggregation, the store and the HTTP adapter

A shallow embedding of `internal/service/subscription_service.go`,
`internal/repository/subscription_repository.go` and `internal/http/handlers.go`.

Conventions of the embedding.
* A Go `string` is a Lean `String`, scanned rune by rune (`String.toList`).
* A Go `error` is the message it carries: fallible functions return `Except String _`.
* A Go `int` is an `Int` in the range of 64-bit two's complement: the product and the sum
  of the loop of `Total` wrap around (`wrap64`), as Go's `*` and `+=` on `int` do.
* A `time.Time` in UTC is its civil reading (year, month, day, hour, minute, second,
  nanosecond); `Before` and `After` compare these readings lexicographically, which is the
  order of instants for normalised readings in one location.
* The database is the list of rows of the `subscriptions` table; each SQL statement of the
  repository is modelled by its meaning on that list, and I/O failures are not modelled.
-/

namespace SubscriptionService

deriving instance DecidableEq for Except

/-! ## time.Time -/

/-- A UTC instant by its civil fields (`time.Time` with location UTC). -/
structure Time where
  year : Int
  month : Int
  day : Int
  hour : Int
  minute : Int
  second : Int
  nsec : Int
  deriving DecidableEq, Repr

/-- Go `time.Date(year, month, day, hour, min, sec, nsec, time.UTC)` for fields already in
their normal ranges. -/
def Date (year month day hour minute second nsec : Int) : Time :=
  ⟨year, month, day, hour, minute, second, nsec⟩

/-- Go `t.Before(u)`: the instant `t` is strictly earlier than `u`. -/
def Time.Before (t u : Time) : Bool :=
  decide (t.year < u.year) || (t.year == u.year &&
  (decide (t.month < u.month) || (t.month == u.month &&
  (decide (t.day < u.day) || (t.day == u.day &&
  (decide (t.hour < u.hour) || (t.hour == u.hour &&
  (decide (t.minute < u.minute) || (t.minute == u.minute &&
  (decide (t.second < u.second) || (t.second == u.second &&
  decide (t.nsec < u.nsec))))))))))))

/-- Go `t.After(u)`: the instant `t` is strictly later than `u`. -/
def Time.After (t u : Time) : Bool := u.Before t

/-- First moment of a calendar month: day 1, 00:00:00.000000000, month in 1..12. -/
def Time.FirstOfMonth (t : Time) : Prop :=
  1 ≤ t.month ∧ t.month ≤ 12 ∧ t.day = 1 ∧ t.hour = 0 ∧ t.minute = 0 ∧ t.second = 0 ∧ t.nsec = 0

instance (t : Time) : Decidable t.FirstOfMonth := by
  unfold Time.FirstOfMonth; infer_instance

/-! ## fmt.Sscanf, as far as the service uses it -/

/-- Go `fmt.isSpace`: the runes the scanner treats as white space. -/
def isSpace (c : Char) : Bool :=
  let n := c.toNat
  n == 0x20 || (0x09 ≤ n && n ≤ 0x0d) || n == 0x85 || n == 0xA0 || n == 0x1680 ||
  (0x2000 ≤ n && n ≤ 0x200a) || n == 0x2028 || n == 0x2029 || n == 0x202f || n == 0x205f ||
  n == 0x3000

/-- Go `(*ss).SkipSpace` for `Sscanf` (`nlIsSpace = false`): drops leading white space and
fails ("unexpected newline") when it meets a line feed. -/
def skipSpace : List Char → Option (List Char)
  | [] => some []
  | c :: cs =>
    if c = '\n' then none
    else if isSpace c then skipSpace cs
    else some (c :: cs)

/-- Runes accepted by `scanNumber` for verb `d`: Go `decimalDigits = "0123456789"`. -/
def isDecimalDigitRune (c : Char) : Bool := c.isDigit

/-- The loop `for s.accept(digits) {}` under a width budget: the longest run of at most `wid`
digit runes, and the rest of the input. -/
def acceptDigits : Nat → List Char → List Char × List Char
  | _, [] => ([], [])
  | wid, c :: cs =>
    if wid = 0 then ([], c :: cs)
    else if isDecimalDigitRune c then
      let r := acceptDigits (wid - 1) cs
      (c :: r.1, r.2)
    else ([], c :: cs)

/-- Go `strconv.ParseUint(tok, 10, 64)` on the digits of a token: the empty token and a
token with a rune that is not a decimal digit are syntax errors. -/
def parseDecimal (tok : List Char) : Option Nat :=
  if tok = [] ∨ tok.any (fun c => !c.isDigit) then none
  else some (tok.foldl (fun acc c => acc * 10 + (c.toNat - '0'.toNat)) 0)

/-- Go `(*ss).scanInt` for verb `d` into an `int`, with width `wid`, preceded by the
`SkipSpace` that `doScanf` performs before the width takes effect: optional sign, then at
least one digit rune, all within `wid` runes; the token goes through `strconv.ParseInt`.
Returns the value and the unread input. -/
def scanInt (wid : Nat) (inp : List Char) : Option (Int × List Char) :=
  match skipSpace inp with
  | none => none
  | some inp1 =>
    if wid = 0 then none
    else
      let signed : Bool × Nat × List Char :=
        match inp1 with
        | [] => (false, wid, [])
        | c :: r =>
          if c = '+' then (false, wid - 1, r)
          else if c = '-' then (true, wid - 1, r)
          else (false, wid, c :: r)
      let ds := acceptDigits signed.2.1 signed.2.2
      match parseDecimal ds.1 with
      | none => none
      | some n =>
        let v : Int := if signed.1 then -(n : Int) else (n : Int)
        if v < -(2 ^ 63 : Int) ∨ (2 ^ 63 : Int) ≤ v then none else some (v, ds.2)

/-- Go `fmt.Sscanf(s, "%02d-%04d", &mm, &yyyy)`: the two scanned integers, or `none` when
Sscanf returns an error. Input left over after the year is not examined. -/
def sscanfMonthYear (inp : List Char) : Option (Int × Int) :=
  match scanInt 2 inp with
  | none => none
  | some (mm, r1) =>
    match r1 with
    | '-' :: r2 =>
      match scanInt 4 r2 with
      | none => none
      | some (yyyy, _) => some (mm, yyyy)
    | _ => none

/-- Go `parseMonthYear` (subscription_service.go, lines 21-27). -/
def parseMonthYear (s : String) : Except String Time :=
  match sscanfMonthYear s.toList with
  | none => .error ("invalid month-year: " ++ s)
  | some (mm, yyyy) =>
    if mm < 1 ∨ mm > 12 then .error ("invalid month: " ++ toString mm)
    else .ok (Date yyyy mm 1 0 0 0 0)

/-- The shape `^\d{2}-\d{4}$` of the specification: two decimal digits, a hyphen, four
decimal digits, nothing before or after. -/
def matchesMMYYYY (s : String) : Bool :=
  match s.toList with
  | [a, b, h, c, d, e, f] =>
    a.isDigit && b.isDigit && h == '-' && c.isDigit && d.isDigit && e.isDigit && f.isDigit
  | _ => false

/-- Value of a decimal digit rune. -/
def digitVal (c : Char) : Int := ((c.toNat - '0'.toNat : Nat) : Int)

/-! ## Identifiers -/

/-- A `uuid.UUID`: a 128-bit identifier, by its numeric value. -/
structure UUID where
  val : Nat
  deriving DecidableEq, Repr

/-- The bytes of a Go string: the UTF-8 encoding of its runes. -/
def goBytes (s : String) : List Nat :=
  (s.toList.flatMap String.utf8EncodeChar).map UInt8.toNat

/-- Go `xtob` of github.com/google/uuid on one byte: the value of a hexadecimal digit. -/
def hexVal (n : Nat) : Option Nat :=
  if 48 ≤ n ∧ n ≤ 57 then some (n - 48)
  else if 97 ≤ n ∧ n ≤ 102 then some (n - 87)
  else if 65 ≤ n ∧ n ≤ 70 then some (n - 55)
  else none

/-- Value of a run of hexadecimal digits, `none` if one of the bytes is not such a digit. -/
def hexRun (acc : Nat) : List Nat → Option Nat
  | [] => some acc
  | c :: cs =>
    match hexVal c with
    | none => none
    | some d => hexRun (acc * 16 + d) cs

/-- The tail of `uuid.Parse` on at least 36 bytes: hyphens (byte 45) at the offsets 8, 13, 18
and 23, hexadecimal digits at the other offsets below 36; later bytes are not examined. -/
def parseHyphenated (bs : List Nat) : Option UUID :=
  if bs.get? 8 = some 45 ∧ bs.get? 13 = some 45 ∧ bs.get? 18 = some 45 ∧
      bs.get? 23 = some 45 then
    (hexRun 0 (bs.take 8 ++ (bs.drop 9).take 4 ++ (bs.drop 14).take 4 ++ (bs.drop 19).take 4 ++
      (bs.drop 24).take 12)).map UUID.mk
  else none

/-- An ASCII letter in lower case, as `strings.EqualFold` compares the bytes of a prefix with
`urn:uuid:`. -/
def asciiLower (n : Nat) : Nat := if 65 ≤ n ∧ n ≤ 90 then n + 32 else n

/-- A model of `uuid.Parse` (github.com/google/uuid, a library outside the repository), by the
length of the string in bytes: 36, the hyphenated spelling; 45, the same after a prefix
`urn:uuid:` in any case; 38, the same after one byte and before one more, which the library
does not examine; 32, hexadecimal digits only; any other length is an error. The handlers
below take the parser as a parameter, this model serves the concrete examples. -/
def uuidParse (s : String) : Option UUID :=
  let bs := goBytes s
  if bs.length = 36 then parseHyphenated bs
  else if bs.length = 45 then
    if (bs.take 9).map asciiLower = [117, 114, 110, 58, 117, 117, 105, 100, 58] then
      parseHyphenated (bs.drop 9)
    else none
  else if bs.length = 38 then parseHyphenated (bs.drop 1)
  else if bs.length = 32 then (hexRun 0 bs).map UUID.mk
  else none

/-! ## models.Subscription -/

/-- Modelled from the spec: `models.Subscription`, whose declaration is not among the sources.
The fields are those of the data model (spec, section 3) under the names the service and the
repository use; `EndDate` is a nullable `*time.Time`. -/
structure Subscription where
  ID : UUID
  ServiceName : String
  Price : Int
  UserID : UUID
  StartDate : Time
  EndDate : Option Time
  CreatedAt : Time
  UpdatedAt : Time
  deriving DecidableEq, Repr

/-- The zero `time.Time`: January 1, year 1, 00:00:00 UTC. -/
def Time.zero : Time := Date 1 1 1 0 0 0 0

/-! ## internal/repository -/

/-- Go `repository.ListFilters`. -/
structure ListFilters where
  UserID : Option UUID
  ServiceName : Option String
  From : Option Time
  To : Option Time
  Limit : Int
  Offset : Int
  deriving DecidableEq, Repr

/-- The operations of `*repository.SubscriptionRepository` that the service calls, over a
store state `σ`. Reads return a result; writes return a result and the next state. -/
structure Repo (σ : Type) where
  Create : Subscription → σ → Except String Subscription × σ
  GetByID : UUID → σ → Except String Subscription
  Update : Subscription → σ → Except String Subscription × σ
  Delete : UUID → σ → Except String Unit × σ
  List : ListFilters → σ → Except String (List Subscription × Int)

/-- The `WHERE` clause that `SubscriptionRepository.List` composes (lines 75-78), read as a
predicate on a row: one conjunct per filter that is present. -/
def matchesFilters (f : ListFilters) (s : Subscription) : Bool :=
  (match f.UserID with
    | some u => decide (s.UserID = u)
    | none => true) &&
  (match f.ServiceName with
    | some n => decide (s.ServiceName = n)
    | none => true) &&
  (match f.From with
    | some t =>
      (match s.EndDate with
        | none => true
        | some e => !e.Before t)
    | none => true) &&
  (match f.To with
    | some t => !t.Before s.StartDate
    | none => true)

/-- The order `a` before `b` of `ORDER BY created_at DESC`. -/
def createdDesc (a b : Subscription) : Prop := a.CreatedAt.Before b.CreatedAt = false

instance : DecidableRel createdDesc := fun a b => by
  unfold createdDesc; infer_instance

/-- Go `SubscriptionRepository.GetByID` (lines 32-41). -/
def SubscriptionRepository.GetByID (id : UUID) (rows : List Subscription) :
    Except String Subscription :=
  match rows.find? (fun s => decide (s.ID = id)) with
  | none => .error "not found"
  | some s => .ok s

/-- Modelled from the spec: the uniqueness of `id` in the table `subscriptions`, whose
declaration (a migration) is not among the sources. An insert violates it when a stored row
has the same id. -/
def violatesUniqueID (s : Subscription) (rows : List Subscription) : Bool :=
  rows.any (fun r => decide (r.ID = s.ID))

/-- Go `SubscriptionRepository.Create` (lines 22-30): the `INSERT`, with `now()` for both
timestamps; it fails when the table refuses the row. -/
def SubscriptionRepository.Create (now : Time) (s : Subscription) (rows : List Subscription) :
    Except String Subscription × List Subscription :=
  if violatesUniqueID s rows then
    (.error "insert subscription: ERROR: duplicate key value violates unique constraint", rows)
  else
    let s1 := { s with CreatedAt := now, UpdatedAt := now }
    (.ok s1, rows ++ [s1])

/-- Go `SubscriptionRepository.Update` (lines 43-50): the `UPDATE ... WHERE id=$1 RETURNING
created_at, updated_at`; scanning an empty result fails. -/
def SubscriptionRepository.Update (now : Time) (s : Subscription) (rows : List Subscription) :
    Except String Subscription × List Subscription :=
  match rows.find? (fun r => decide (r.ID = s.ID)) with
  | none => (.error "update subscription: no rows in result set", rows)
  | some old =>
    let s1 := { s with CreatedAt := old.CreatedAt, UpdatedAt := now }
    (.ok s1, rows.map (fun r => if r.ID = s.ID then { s1 with CreatedAt := r.CreatedAt } else r))

/-- Go `SubscriptionRepository.Delete` (lines 52-58). -/
def SubscriptionRepository.Delete (id : UUID) (rows : List Subscription) :
    Except String Unit × List Subscription :=
  if rows.any (fun r => decide (r.ID = id)) then
    (.ok (), rows.filter (fun r => !decide (r.ID = id)))
  else (.error "not found", rows)

/-- Go `SubscriptionRepository.List` (lines 69-102) on the table `rows`: the page query
(filter, `ORDER BY created_at DESC`, `OFFSET`, `LIMIT`) and the count query over the same
filter. PostgreSQL refuses a negative `LIMIT` or `OFFSET`; rows of equal `created_at`, whose
order PostgreSQL leaves open, keep their order in the table. -/
def SubscriptionRepository.List (f : ListFilters) (rows : List Subscription) :
    Except String (List Subscription × Int) :=
  if f.Limit < 0 then .error "rows err: ERROR: LIMIT must not be negative (SQLSTATE 2201W)"
  else if f.Offset < 0 then
    .error "rows err: ERROR: OFFSET must not be negative (SQLSTATE 2201X)"
  else
    let hits := rows.filter (matchesFilters f)
    let page := ((hits.insertionSort createdDesc).drop f.Offset.toNat).take f.Limit.toNat
    .ok (page, (hits.length : Int))

/-- The repository over the PostgreSQL table, the table being the state and `now` the value of
`now()` during the request. -/
def pgRepo (now : Time) : Repo (List Subscription) where
  Create := SubscriptionRepository.Create now
  GetByID := SubscriptionRepository.GetByID
  Update := SubscriptionRepository.Update now
  Delete := SubscriptionRepository.Delete
  List := SubscriptionRepository.List

/-! ## internal/service

`Service.List` is declared after `Service.Total`, as `SubscriptionRepository.List` and
`Handlers.List` are declared last in their groups: inside a declaration named `X.f` the name
`List` refers to `X.List` once that exists. -/

/-- Go `service.CreateInput`. -/
structure CreateInput where
  ServiceName : String
  Price : Int
  UserID : UUID
  StartDate : String
  EndDate : Option String
  deriving DecidableEq, Repr

/-- Go `service.ListQuery`. -/
structure ListQuery where
  UserID : Option UUID
  ServiceName : Option String
  From : Option String
  To : Option String
  Limit : Int
  Offset : Int
  deriving DecidableEq, Repr

/-- Go `service.TotalQuery`. -/
structure TotalQuery where
  UserID : Option UUID
  ServiceName : Option String
  From : String
  To : String
  deriving DecidableEq, Repr

/-- Go `SubscriptionService.Create` (lines 53-74); `newID` is the value of `uuid.New()`. -/
def Service.Create {σ : Type} (repo : Repo σ) (newID : UUID) (req : CreateInput) (st : σ) :
    Except String Subscription × σ :=
  match parseMonthYear req.StartDate with
  | .error e => (.error e, st)
  | .ok start =>
    let endRes : Except String (Option Time) :=
      match req.EndDate with
      | none => .ok none
      | some es =>
        match parseMonthYear es with
        | .error e => .error e
        | .ok en => .ok (some en)
    match endRes with
    | .error e => (.error e, st)
    | .ok endPtr =>
      let m : Subscription :=
        { ID := newID, ServiceName := req.ServiceName, Price := req.Price, UserID := req.UserID,
          StartDate := start, EndDate := endPtr, CreatedAt := Time.zero, UpdatedAt := Time.zero }
      match repo.Create m st with
      | (.error e, st1) => (.error e, st1)
      | (.ok created, st1) => (.ok created, st1)

/-- Go `SubscriptionService.GetByID` (lines 76-79). -/
def Service.GetByID {σ : Type} (repo : Repo σ) (id : UUID) (st : σ) : Except String Subscription :=
  repo.GetByID id st

/-- Go `SubscriptionService.Update` (lines 81-101). -/
def Service.Update {σ : Type} (repo : Repo σ) (id : UUID) (req : CreateInput) (st : σ) :
    Except String Subscription × σ :=
  match parseMonthYear req.StartDate with
  | .error e => (.error e, st)
  | .ok start =>
    let endRes : Except String (Option Time) :=
      match req.EndDate with
      | none => .ok none
      | some es =>
        match parseMonthYear es with
        | .error e => .error e
        | .ok en => .ok (some en)
    match endRes with
    | .error e => (.error e, st)
    | .ok endPtr =>
      match repo.GetByID id st with
      | .error e => (.error e, st)
      | .ok existing =>
        let existing1 : Subscription :=
          { existing with ServiceName := req.ServiceName, Price := req.Price,
                          UserID := req.UserID, StartDate := start, EndDate := endPtr }
        match repo.Update existing1 st with
        | (.error e, st1) => (.error e, st1)
        | (.ok updated, st1) => (.ok updated, st1)

/-- Go `SubscriptionService.Delete` (lines 103-106). -/
def Service.Delete {σ : Type} (repo : Repo σ) (id : UUID) (st : σ) : Except String Unit × σ :=
  repo.Delete id st

/-- The value a 64-bit Go `int` holds after an arithmetic operation whose exact result is
`x`: the representative of `x` modulo `2^64` in `[-2^63, 2^63)`. -/
def wrap64 (x : Int) : Int := (x + 2 ^ 63) % 2 ^ 64 - 2 ^ 63

/-- The values of a 64-bit Go `int`. -/
def IsInt64 (x : Int) : Prop := -(2 ^ 63) ≤ x ∧ x < 2 ^ 63

instance (x : Int) : Decidable (IsInt64 x) := by
  unfold IsInt64; infer_instance

/-- Go `monthsBetweenInclusive` (lines 116-118). The year of a `time.Time` lies within about
2.93e11 of zero, so this expression stays far inside 64 bits and is computed exactly. -/
def monthsBetweenInclusive (a b : Time) : Int :=
  (b.year - a.year) * 12 + b.month - a.month + 1

/-- One iteration of the loop of `Total` (lines 130-137): the accumulator `sum` after the
record `sbs`. A `continue` leaves the accumulator as it is; `sbs.Price * months` and
`sum += ...` are Go `int` operations and wrap around. -/
def totalStep (from_ to_ : Time) (sum : Int) (sbs : Subscription) : Int :=
  let start := sbs.StartDate
  let end_ : Time :=
    match sbs.EndDate with
    | some e => if e.Before to_ then e else to_
    | none => to_
  if end_.Before from_ || start.After to_ then sum
  else
    let start1 := if start.Before from_ then from_ else start
    let months := monthsBetweenInclusive start1 end_
    let months1 := if months < 0 then 0 else months
    wrap64 (sum + wrap64 (sbs.Price * months1))

/-- The loop of `Total` (lines 128-138): `var sum int; for _, sbs := range items`. -/
def totalLoop (from_ to_ : Time) (items : List Subscription) : Int :=
  items.foldl (totalStep from_ to_) 0

/-- The filters `Total` passes to `repo.List` (line 126). -/
def totalFilters (q : TotalQuery) (from_ to_ : Time) : ListFilters :=
  { UserID := q.UserID, ServiceName := q.ServiceName, From := some from_, To := some to_,
    Limit := 100000, Offset := 0 }

/-- Go `SubscriptionService.Total` (lines 120-140). -/
def Service.Total {σ : Type} (repo : Repo σ) (q : TotalQuery) (st : σ) : Except String Int :=
  match parseMonthYear q.From with
  | .error e => .error e
  | .ok from_ =>
    match parseMonthYear q.To with
    | .error e => .error e
    | .ok to_ =>
      match repo.List (totalFilters q from_ to_) st with
      | .error e => .error e
      | .ok (items, _) => .ok (totalLoop from_ to_ items)

/-- Go `SubscriptionService.List` (lines 108-114). -/
def Service.List {σ : Type} (repo : Repo σ) (q : ListQuery) (st : σ) :
    Except String (List Subscription × Int) :=
  let parseOpt : Option String → Except String (Option Time) := fun o =>
    match o with
    | none => .ok none
    | some v =>
      match parseMonthYear v with
      | .error e => .error e
      | .ok t => .ok (some t)
  match parseOpt q.From with
  | .error e => .error e
  | .ok from_ =>
    match parseOpt q.To with
    | .error e => .error e
    | .ok to_ =>
      repo.List { UserID := q.UserID, ServiceName := q.ServiceName, From := from_, To := to_,
                  Limit := q.Limit, Offset := q.Offset } st

/-! ## internal/http -/

/-- Go `http.CreateRequest` (`UpdateRequest` is an alias of it). -/
structure CreateRequest where
  ServiceName : String
  Price : Int
  UserID : UUID
  StartDate : String
  EndDate : Option String
  deriving DecidableEq, Repr

/-- Go `http.SubscriptionDTO`. -/
structure SubscriptionDTO where
  ID : UUID
  ServiceName : String
  Price : Int
  UserID : UUID
  StartDate : Time
  EndDate : Option Time
  CreatedAt : Time
  UpdatedAt : Time
  deriving DecidableEq, Repr

/-- Go `toDTO` (lines 197-208). -/
def toDTO (m : Subscription) : SubscriptionDTO :=
  { ID := m.ID, ServiceName := m.ServiceName, Price := m.Price, UserID := m.UserID,
    StartDate := m.StartDate, EndDate := m.EndDate, CreatedAt := m.CreatedAt,
    UpdatedAt := m.UpdatedAt }

/-- The payloads the handlers encode: the error envelope `{"errors": {"code", "message"}}`,
`SubscriptionResponse`, `ListResponse`, `TotalResponse`, and `nil`. -/
inductive Payload where
  | errors (code : Int) (message : String)
  | subscription (dto : SubscriptionDTO)
  | list (subscriptions : List SubscriptionDTO) (total : Int)
  | total (amount : Int)
  | null
  deriving DecidableEq, Repr

/-- What a handler writes: the HTTP status and the encoded payload. -/
structure Response where
  status : Nat
  payload : Payload
  deriving DecidableEq, Repr

/-- Go `writeJSON` (lines 77-81). -/
def writeJSON (code : Nat) (payload : Payload) : Response := ⟨code, payload⟩

/-- The parts of an `*http.Request` the handlers read: the `{id}` path parameter
(`chi.URLParam(r, "id")`), the query string (`r.URL.Query()`), and the outcome of decoding
the body as JSON into a `CreateRequest` (`none` when `Decode` returns an error). -/
structure Request where
  id : String
  query : List (String × String)
  body : Option CreateRequest
  deriving DecidableEq, Repr

/-- Go `r.URL.Query().Get(key)`: the first value of `key`, the empty string when absent. -/
def queryGet (r : Request) (key : String) : String :=
  match r.query.lookup key with
  | some v => v
  | none => ""

/-- Go `parseInt` (handlers.go, lines 191-195): `fmt.Sscanf(s, "%d", &n)`, without a width
(the scanner's `hugeWid`). -/
def parseInt (s : String) : Option Int :=
  match scanInt (2 ^ 30) s.toList with
  | none => none
  | some (n, _) => some n

/-- Go `HandlersImpl.Create` (lines 83-95). -/
def Handlers.Create {σ : Type} (repo : Repo σ) (newID : UUID) (r : Request) (st : σ) :
    Response × σ :=
  match r.body with
  | none => (writeJSON 400 (.errors 400 "invalid json"), st)
  | some req =>
    match Service.Create repo newID
        { ServiceName := req.ServiceName, Price := req.Price, UserID := req.UserID,
          StartDate := req.StartDate, EndDate := req.EndDate } st with
    | (.error e, st1) => (writeJSON 400 (.errors 400 e), st1)
    | (.ok sub, st1) => (writeJSON 201 (.subscription (toDTO sub)), st1)

/-- Go `HandlersImpl.GetByID` (lines 97-110); `parse` is `uuid.Parse`. -/
def Handlers.GetByID {σ : Type} (parse : String → Option UUID) (repo : Repo σ) (r : Request)
    (st : σ) : Response × σ :=
  match parse r.id with
  | none => (writeJSON 400 (.errors 400 "invalid id"), st)
  | some id =>
    match Service.GetByID repo id st with
    | .error e => (writeJSON 404 (.errors 404 e), st)
    | .ok sub => (writeJSON 200 (.subscription (toDTO sub)), st)

/-- Go `HandlersImpl.Update` (lines 112-130). -/
def Handlers.Update {σ : Type} (parse : String → Option UUID) (repo : Repo σ) (r : Request)
    (st : σ) : Response × σ :=
  match parse r.id with
  | none => (writeJSON 400 (.errors 400 "invalid id"), st)
  | some id =>
    match r.body with
    | none => (writeJSON 400 (.errors 400 "invalid json"), st)
    | some req =>
      match Service.Update repo id
          { ServiceName := req.ServiceName, Price := req.Price, UserID := req.UserID,
            StartDate := req.StartDate, EndDate := req.EndDate } st with
      | (.error e, st1) => (writeJSON 400 (.errors 400 e), st1)
      | (.ok sub, st1) => (writeJSON 200 (.subscription (toDTO sub)), st1)

/-- Go `HandlersImpl.Delete` (lines 132-144). -/
def Handlers.Delete {σ : Type} (parse : String → Option UUID) (repo : Repo σ) (r : Request)
    (st : σ) : Response × σ :=
  match parse r.id with
  | none => (writeJSON 400 (.errors 400 "invalid id"), st)
  | some id =>
    match Service.Delete repo id st with
    | (.error e, st1) => (writeJSON 404 (.errors 404 e), st1)
    | (.ok _, st1) => (writeJSON 204 .null, st1)

/-- The `service_name` filter of `List` and `Total` (lines 154, 179): set when the query
value is not empty. -/
def serviceNameParam (r : Request) : Option String :=
  if queryGet r "service_name" ≠ "" then some (queryGet r "service_name") else none

/-- The `user_id` filter of `List` and `Total` (lines 155-157, 180-182): set when the query
value is not empty and `uuid.Parse` accepts it. -/
def userIDParam (parse : String → Option UUID) (r : Request) : Option UUID :=
  if queryGet r "user_id" ≠ "" then
    match parse (queryGet r "user_id") with
    | some id => some id
    | none => none
  else none

/-- Go `HandlersImpl.Total` (lines 171-189). -/
def Handlers.Total {σ : Type} (parse : String → Option UUID) (repo : Repo σ) (r : Request)
    (st : σ) : Response × σ :=
  if queryGet r "from" = "" then (writeJSON 400 (.errors 400 "from required"), st)
  else if queryGet r "to" = "" then (writeJSON 400 (.errors 400 "to required"), st)
  else
    match Service.Total repo
        { UserID := userIDParam parse r, ServiceName := serviceNameParam r,
          From := queryGet r "from", To := queryGet r "to" } st with
    | .error e => (writeJSON 400 (.errors 400 e), st)
    | .ok amount => (writeJSON 200 (.total amount), st)

/-- The `limit` and `offset` of `List` (lines 148-153): the default unless the query value
is not empty and `parseInt` accepts it. -/
def intParam (r : Request) (key : String) (dflt : Int) : Int :=
  if queryGet r key ≠ "" then
    match parseInt (queryGet r key) with
    | some n => n
    | none => dflt
  else dflt

/-- The optional `from` and `to` of `List` (lines 158-159). -/
def stringParam (r : Request) (key : String) : Option String :=
  if queryGet r key ≠ "" then some (queryGet r key) else none

/-- Go `HandlersImpl.List` (lines 146-169). -/
def Handlers.List {σ : Type} (parse : String → Option UUID) (repo : Repo σ) (r : Request)
    (st : σ) : Response × σ :=
  match Service.List repo
      { UserID := userIDParam parse r, ServiceName := serviceNameParam r,
        From := stringParam r "from", To := stringParam r "to",
        Limit := intParam r "limit" 50, Offset := intParam r "offset" 0 } st with
  | .error e => (writeJSON 400 (.errors 400 e), st)
  | .ok (list, total) => (writeJSON 200 (.list (list.map toDTO) total), st)

/-! ## Vocabulary of the specification -/

/-- The later of two instants (`max`). -/
def Time.later (a b : Time) : Time := if a.Before b then b else a

/-- The earlier of two instants (`min`). -/
def Time.earlier (a b : Time) : Time := if a.Before b then a else b

/-- The calendar months `m` (first moments of a month) with `lo <= m <= hi`. -/
def monthsWithin (lo hi : Time) : Set Time :=
  {m | m.FirstOfMonth ∧ m.Before lo = false ∧ hi.Before m = false}

/-- Months inclusive of the glossary before clamping:
`(b.year - a.year) * 12 + (b.month - a.month) + 1`. -/
def monthsInclusive (a b : Time) : Int :=
  (b.year - a.year) * 12 + (b.month - a.month) + 1

/-- The data-model invariant on the dates of a record: `start_date`, and `end_date` when
present, are first moments of a month. -/
def Subscription.DatesFirstOfMonth (r : Subscription) : Prop :=
  r.StartDate.FirstOfMonth ∧ ∀ e, r.EndDate = some e → e.FirstOfMonth

/-- The amount one record adds to the total of the window `[F, T]`: the loop body run on the
accumulator 0. -/
def contribution (F T : Time) (r : Subscription) : Int := totalStep F T 0 r

/-- Position of a calendar month on the month axis. -/
def monthIndex (t : Time) : Int := t.year * 12 + t.month

/-- The first moment of the calendar month at position `k` of the month axis. -/
def monthStart (k : Int) : Time := Date ((k - 1) / 12) ((k - 1) % 12 + 1) 1 0 0 0 0

/-- The month field `MM` of a string of the shape `MM-YYYY`. -/
def fieldMM (s : String) : Int :=
  digitVal (s.toList.getD 0 '0') * 10 + digitVal (s.toList.getD 1 '0')

/-- The year field `YYYY` of a string of the shape `MM-YYYY`. -/
def fieldYYYY (s : String) : Int :=
  digitVal (s.toList.getD 3 '0') * 1000 + digitVal (s.toList.getD 4 '0') * 100 +
    digitVal (s.toList.getD 5 '0') * 10 + digitVal (s.toList.getD 6 '0')

/-- The end of the charged interval: `end_date`, or `T` when it is absent. -/
def endOr (T : Time) (r : Subscription) : Time := r.EndDate.getD T

/-- The number of months the loop body charges for a record: 0 when the record is skipped,
else the clamped `monthsBetweenInclusive` of the clipped interval. -/
def monthsCharged (F T : Time) (r : Subscription) : Int :=
  let end_ : Time :=
    match r.EndDate with
    | some e => if e.Before T then e else T
    | none => T
  if end_.Before F || r.StartDate.After T then 0
  else
    let months := monthsBetweenInclusive (if r.StartDate.Before F then F else r.StartDate) end_
    if months < 0 then 0 else months

/-- The request without the query parameter `key`. -/
def dropQueryParam (r : Request) (key : String) : Request :=
  { r with query := r.query.filter (fun p => p.1 != key) }

/-- The outcome of parsing the optional `end_date` of an input (lines 56-61 and 84-89). -/
def parseEndDate (o : Option String) : Except String (Option Time) :=
  match o with
  | none => .ok none
  | some es =>
    match parseMonthYear es with
    | .error e => .error e
    | .ok en => .ok (some en)

/-! ## The queries List composes -/

/-- A bind value handed to pgx (an `any` of `args`): a filter value of `List`. -/
inductive Arg where
  | uuid (u : UUID)
  | text (s : String)
  | time (t : Time)
  deriving DecidableEq, Repr

/-- The variables of the composition in `SubscriptionRepository.List` (lines 70-73). -/
structure ListSQL where
  base : String
  countBase : String
  args : List Arg
  idx : Int
  deriving DecidableEq, Repr

/-- The composition of the page query, the count query and the bind values in
`SubscriptionRepository.List` (lines 70-81), statement by statement; `fmt.Sprintf` with `%d`
is `toString` of the integer. -/
def listQueries (f : ListFilters) : ListSQL :=
  let s0 : ListSQL :=
    { base := "SELECT id, service_name, price, user_id, start_date, end_date, created_at, updated_at FROM subscriptions WHERE 1=1",
      countBase := "SELECT count(1) FROM subscriptions WHERE 1=1",
      args := [],
      idx := 1 }
  let s1 : ListSQL :=
    match f.UserID with
    | some u =>
      { base := s0.base ++ (" AND user_id = $" ++ toString s0.idx),
        countBase := s0.countBase ++ (" AND user_id = $" ++ toString s0.idx),
        args := s0.args ++ [Arg.uuid u],
        idx := s0.idx + 1 }
    | none => s0
  let s2 : ListSQL :=
    match f.ServiceName with
    | some n =>
      { base := s1.base ++ (" AND service_name = $" ++ toString s1.idx),
        countBase := s1.countBase ++ (" AND service_name = $" ++ toString s1.idx),
        args := s1.args ++ [Arg.text n],
        idx := s1.idx + 1 }
    | none => s1
  let s3 : ListSQL :=
    match f.From with
    | some t =>
      { base := s2.base ++ (" AND (end_date IS NULL OR end_date >= $" ++ toString s2.idx ++ ")"),
        countBase :=
          s2.countBase ++ (" AND (end_date IS NULL OR end_date >= $" ++ toString s2.idx ++ ")"),
        args := s2.args ++ [Arg.time t],
        idx := s2.idx + 1 }
    | none => s2
  let s4 : ListSQL :=
    match f.To with
    | some t =>
      { base := s3.base ++ (" AND start_date <= $" ++ toString s3.idx),
        countBase := s3.countBase ++ (" AND start_date <= $" ++ toString s3.idx),
        args := s3.args ++ [Arg.time t],
        idx := s3.idx + 1 }
    | none => s3
  let s5 : ListSQL := { s4 with base := s4.base ++ " ORDER BY created_at DESC" }
  { s5 with
    base := s5.base ++ (" LIMIT " ++ toString f.Limit ++ " OFFSET " ++ toString f.Offset) }

/-- The four filters of `List`, in the order the specification lists them. -/
inductive FilterKind where
  | userID
  | serviceName
  | fromDate
  | toDate
  deriving DecidableEq, Repr

/-- The value of a filter, when the filter is present. -/
def filterValue (f : ListFilters) : FilterKind → Option Arg
  | .userID => f.UserID.map Arg.uuid
  | .serviceName => f.ServiceName.map Arg.text
  | .fromDate => f.From.map Arg.time
  | .toDate => f.To.map Arg.time

/-- The ordered list of `{fragment, bind_value}` entries of the specification: one entry per
present filter, in the order user_id, service_name, from, to. -/
def filterEntries (f : ListFilters) : List (FilterKind × Arg) :=
  [FilterKind.userID, FilterKind.serviceName, FilterKind.fromDate, FilterKind.toDate].filterMap
    (fun k => (filterValue f k).map (fun v => (k, v)))

/-- The SQL fragment of a filter whose bind value is the `i`-th argument. -/
def fragment (k : FilterKind) (i : Nat) : String :=
  match k with
  | .userID => " AND user_id = $" ++ toString i
  | .serviceName => " AND service_name = $" ++ toString i
  | .fromDate => " AND (end_date IS NULL OR end_date >= $" ++ toString i ++ ")"
  | .toDate => " AND start_date <= $" ++ toString i

/-- The fragments of the entries, the entry at position `i` (from 1) using the placeholder
`$i`, joined in order. -/
def whereFragments (es : List (FilterKind × Arg)) : String :=
  String.join ((List.enumFrom 1 es).map (fun p => fragment p.2.1 p.1))

/-- The head of the page query up to and including `WHERE 1=1`. -/
def pageHead : String :=
  "SELECT id, service_name, price, user_id, start_date, end_date, created_at, updated_at FROM subscriptions WHERE 1=1"

/-- The head of the count query up to and including `WHERE 1=1`. -/
def countHead : String := "SELECT count(1) FROM subscriptions WHERE 1=1"

/-- The filters with user 7, service A and the window January 2024 to March 2024. -/
def exampleFilters : ListFilters :=
  { UserID := some ⟨7⟩, ServiceName := some "A", From := some (Date 2024 1 1 0 0 0 0),
    To := some (Date 2024 3 1 0 0 0 0), Limit := 50, Offset := 0 }

/-- The filters with the service name and the upper bound of the window only. -/
def exampleFiltersTwo : ListFilters :=
  { UserID := none, ServiceName := some "A", From := none,
    To := some (Date 2024 3 1 0 0 0 0), Limit := 2, Offset := 4 }

/-! ## Example data -/

/-- January 2024 to March 2024, price 100, service A of user 7. -/
def exampleSubA : Subscription :=
  { ID := ⟨1⟩, ServiceName := "A", Price := 100, UserID := ⟨7⟩,
    StartDate := Date 2024 1 1 0 0 0 0, EndDate := some (Date 2024 3 1 0 0 0 0),
    CreatedAt := Date 2024 1 5 10 0 0 0, UpdatedAt := Date 2024 1 5 10 0 0 0 }

/-- February 2024 alone, price 200, service B of user 7. -/
def exampleSubB : Subscription :=
  { ID := ⟨2⟩, ServiceName := "B", Price := 200, UserID := ⟨7⟩,
    StartDate := Date 2024 2 1 0 0 0 0, EndDate := some (Date 2024 2 1 0 0 0 0),
    CreatedAt := Date 2024 1 6 10 0 0 0, UpdatedAt := Date 2024 1 6 10 0 0 0 }

/-- December 2023 to October 2024, price 100: three months before and after the window
March 2024 to July 2024. -/
def exampleSubWide : Subscription :=
  { ID := ⟨3⟩, ServiceName := "C", Price := 100, UserID := ⟨7⟩,
    StartDate := Date 2023 12 1 0 0 0 0, EndDate := some (Date 2024 10 1 0 0 0 0),
    CreatedAt := Date 2023 12 2 9 0 0 0, UpdatedAt := Date 2023 12 2 9 0 0 0 }

/-- The query `from=01-2024&to=03-2024` without further filters. -/
def exampleQuery : TotalQuery :=
  { UserID := none, ServiceName := none, From := "01-2024", To := "03-2024" }

/-- The query `from=03-2024&to=01-2024`, whose window is inverted. -/
def exampleQueryInverted : TotalQuery :=
  { UserID := none, ServiceName := none, From := "03-2024", To := "01-2024" }

/-- A table of 100001 subscriptions of user 7, each active in January 2024 only, at price 1;
the ids are distinct. -/
def manyRows : List Subscription :=
  (List.range 100001).map (fun i =>
    { ID := ⟨i⟩, ServiceName := "A", Price := 1, UserID := ⟨7⟩,
      StartDate := Date 2024 1 1 0 0 0 0, EndDate := some (Date 2024 1 1 0 0 0 0),
      CreatedAt := Date 2024 1 5 10 0 0 0, UpdatedAt := Date 2024 1 5 10 0 0 0 })

/-- The query `from=01-2024&to=01-2024` without further filters. -/
def exampleQueryJanuary : TotalQuery :=
  { UserID := none, ServiceName := none, From := "01-2024", To := "01-2024" }

/-- A valid body for `POST /` and `PUT /{id}`. -/
def exampleBody : CreateRequest :=
  { ServiceName := "netflix", Price := 499, UserID := ⟨7⟩, StartDate := "07-2024",
    EndDate := none }

/-- The request `PUT /00000000-0000-0000-0000-000000000001` with `exampleBody`. -/
def examplePut : Request :=
  { id := "00000000-0000-0000-0000-000000000001", query := [], body := some exampleBody }

/-- A request whose `{id}` is not a UUID. -/
def exampleBadId : Request :=
  { id := "not-a-uuid", query := [], body := some exampleBody }

/-- A subscription of another user, 8: January to March 2024 at price 1000. -/
def exampleSubOther : Subscription :=
  { ID := ⟨4⟩, ServiceName := "A", Price := 1000, UserID := ⟨8⟩,
    StartDate := Date 2024 1 1 0 0 0 0, EndDate := some (Date 2024 3 1 0 0 0 0),
    CreatedAt := Date 2024 1 7 10 0 0 0, UpdatedAt := Date 2024 1 7 10 0 0 0 }

/-- The request `GET /total?from=01-2024&to=03-2024&user_id=not-a-uuid`. -/
def exampleTotalBadUser : Request :=
  { id := "", query := [("from", "01-2024"), ("to", "03-2024"), ("user_id", "not-a-uuid")],
    body := none }

/-- The request `GET /?user_id=not-a-uuid`. -/
def exampleListBadUser : Request :=
  { id := "", query := [("user_id", "not-a-uuid")], body := none }

/-- An input with an empty `service_name` and a negative `price`, and valid dates. -/
def exampleBadInput : CreateInput :=
  { ServiceName := "", Price := -5, UserID := ⟨7⟩, StartDate := "07-2024", EndDate := none }

/-- The record `Create` builds from `exampleBadInput` under the id 9, as stored at the
instant `now`. -/
def exampleBadRecord (now : Time) : Subscription :=
  { ID := ⟨9⟩, ServiceName := "", Price := -5, UserID := ⟨7⟩,
    StartDate := Date 2024 7 1 0 0 0 0, EndDate := none, CreatedAt := now, UpdatedAt := now }

/-- An open-ended subscription from January 2024 at the price 2^62. -/
def exampleSubHuge : Subscription :=
  { ID := ⟨6⟩, ServiceName := "E", Price := 4611686018427387904, UserID := ⟨7⟩,
    StartDate := Date 2024 1 1 0 0 0 0, EndDate := none,
    CreatedAt := Date 2024 1 9 10 0 0 0, UpdatedAt := Date 2024 1 9 10 0 0 0 }

/-- The query `from=01-2024&to=02-2024` without further filters: a window of two months. -/
def exampleQueryTwoMonths : TotalQuery :=
  { UserID := none, ServiceName := none, From := "01-2024", To := "02-2024" }

/-- March 2024 down to January 2024, price 100: the end lies before the start. -/
def exampleSubDegenerate : Subscription :=
  { ID := ⟨5⟩, ServiceName := "D", Price := 100, UserID := ⟨7⟩,
    StartDate := Date 2024 3 1 0 0 0 0, EndDate := some (Date 2024 1 1 0 0 0 0),
    CreatedAt := Date 2024 1 8 10 0 0 0, UpdatedAt := Date 2024 1 8 10 0 0 0 }

/-! ## Lemmas on instants -/

theorem Time.before_iff_monthIndex_lt {a b : Time} (ha : a.FirstOfMonth) (hb : b.FirstOfMonth) :
    a.Before b = true ↔ monthIndex a < monthIndex b := by
  obtain ⟨a1, a2, a3, a4, a5, a6, a7⟩ := ha
  obtain ⟨b1, b2, b3, b4, b5, b6, b7⟩ := hb
  simp only [Time.Before, monthIndex, a3, a4, a5, a6, a7, b3, b4, b5, b6, b7, Bool.or_eq_true,
    Bool.and_eq_true, decide_eq_true_eq, beq_iff_eq, lt_self_iff_false, and_false, or_false,
    and_true]
  omega

theorem Time.before_eq_false_iff {a b : Time} (ha : a.FirstOfMonth) (hb : b.FirstOfMonth) :
    a.Before b = false ↔ monthIndex b ≤ monthIndex a := by
  rw [← Bool.not_eq_true, Time.before_iff_monthIndex_lt ha hb]
  omega

theorem Time.before_irrefl (a : Time) : a.Before a = false := by
  simp [Time.Before]

theorem Time.before_trans {a b c : Time} (h1 : a.Before b = true) (h2 : b.Before c = true) :
    a.Before c = true := by
  simp only [Time.Before, Bool.or_eq_true, Bool.and_eq_true, decide_eq_true_eq, beq_iff_eq]
    at h1 h2 ⊢
  omega

theorem Time.before_asymm {a b : Time} (h : a.Before b = true) : b.Before a = false := by
  rw [← Bool.not_eq_true]
  intro h2
  have := Time.before_trans h h2
  rw [Time.before_irrefl] at this
  exact Bool.false_ne_true this

theorem Time.eq_of_not_before {a b : Time} (h1 : a.Before b = false) (h2 : b.Before a = false) :
    a = b := by
  rw [← Bool.not_eq_true] at h1 h2
  simp only [Time.Before, Bool.or_eq_true, Bool.and_eq_true, decide_eq_true_eq, beq_iff_eq]
    at h1 h2
  obtain ⟨a1, a2, a3, a4, a5, a6, a7⟩ := a
  obtain ⟨b1, b2, b3, b4, b5, b6, b7⟩ := b
  simp only [Time.mk.injEq]
  simp only at h1 h2
  omega

theorem monthIndex_monthStart (k : Int) : monthIndex (monthStart k) = k := by
  simp only [monthIndex, monthStart, Date]
  omega

theorem monthStart_firstOfMonth (k : Int) : (monthStart k).FirstOfMonth := by
  refine ⟨?_, ?_, rfl, rfl, rfl, rfl, rfl⟩
  · show 1 ≤ (k - 1) % 12 + 1
    omega
  · show (k - 1) % 12 + 1 ≤ 12
    omega

theorem monthStart_monthIndex {m : Time} (hm : m.FirstOfMonth) : monthStart (monthIndex m) = m := by
  obtain ⟨y, mo, d, h, mi, sec, ns⟩ := m
  obtain ⟨h1, h2, h3, h4, h5, h6, h7⟩ := hm
  simp only at h1 h2 h3 h4 h5 h6 h7
  subst h3 h4 h5 h6 h7
  have e1 : (y * 12 + mo - 1) / 12 = y := by omega
  have e2 : (y * 12 + mo - 1) % 12 + 1 = mo := by omega
  simp only [monthStart, monthIndex, Date, e1, e2]

theorem monthsWithin_eq_image {lo hi : Time} (hlo : lo.FirstOfMonth) (hhi : hi.FirstOfMonth) :
    monthsWithin lo hi = monthStart '' (Set.Icc (monthIndex lo) (monthIndex hi)) := by
  ext m
  simp only [monthsWithin, Set.mem_setOf_eq, Set.mem_image, Set.mem_Icc]
  constructor
  · rintro ⟨hm, h1, h2⟩
    refine ⟨monthIndex m, ⟨?_, ?_⟩, monthStart_monthIndex hm⟩
    · exact (Time.before_eq_false_iff hm hlo).1 h1
    · exact (Time.before_eq_false_iff hhi hm).1 h2
  · rintro ⟨k, ⟨h1, h2⟩, rfl⟩
    refine ⟨monthStart_firstOfMonth k, ?_, ?_⟩
    · rw [Time.before_eq_false_iff (monthStart_firstOfMonth k) hlo, monthIndex_monthStart]
      exact h1
    · rw [Time.before_eq_false_iff hhi (monthStart_firstOfMonth k), monthIndex_monthStart]
      exact h2

theorem monthStart_injective : Function.Injective monthStart := by
  intro a b h
  have := congrArg monthIndex h
  simpa only [monthIndex_monthStart] using this

theorem ncard_monthsWithin {lo hi : Time} (hlo : lo.FirstOfMonth) (hhi : hi.FirstOfMonth) :
    ((monthsWithin lo hi).ncard : Int) = max 0 (monthsInclusive lo hi) := by
  rw [monthsWithin_eq_image hlo hhi, Set.ncard_image_of_injective _ monthStart_injective,
    ← Finset.coe_Icc, Set.ncard_coe_Finset, Int.card_Icc]
  simp only [monthsInclusive, monthIndex]
  omega

theorem Time.later_firstOfMonth {a b : Time} (ha : a.FirstOfMonth) (hb : b.FirstOfMonth) :
    (a.later b).FirstOfMonth := by
  unfold Time.later; split <;> assumption

theorem Time.earlier_firstOfMonth {a b : Time} (ha : a.FirstOfMonth) (hb : b.FirstOfMonth) :
    (a.earlier b).FirstOfMonth := by
  unfold Time.earlier; split <;> assumption

/-! ## Lemmas on the parser -/

theorem parseMonthYear_ok_iff (s : String) (t : Time) :
    parseMonthYear s = .ok t ↔
      ∃ mm yyyy, sscanfMonthYear s.toList = some (mm, yyyy) ∧ 1 ≤ mm ∧ mm ≤ 12 ∧
        t = Date yyyy mm 1 0 0 0 0 := by
  unfold parseMonthYear
  cases h : sscanfMonthYear s.toList with
  | none => simp
  | some p =>
    obtain ⟨mm, yyyy⟩ := p
    by_cases hm : mm < 1 ∨ mm > 12
    · simp only [if_pos hm]
      constructor
      · intro h1
        cases h1
      · rintro ⟨mm1, yyyy1, h0, h1, h2, -⟩
        simp only [Option.some.injEq, Prod.mk.injEq] at h0
        obtain ⟨rfl, rfl⟩ := h0
        omega
    · simp only [if_neg hm, Except.ok.injEq, Option.some.injEq, Prod.mk.injEq]
      constructor
      · intro h1
        exact ⟨mm, yyyy, ⟨rfl, rfl⟩, by omega, by omega, h1.symm⟩
      · rintro ⟨mm1, yyyy1, ⟨rfl, rfl⟩, -, -, h1⟩
        exact h1.symm

theorem parseMonthYear_firstOfMonth {s : String} {t : Time} (h : parseMonthYear s = .ok t) :
    t.FirstOfMonth := by
  obtain ⟨mm, yyyy, -, h1, h2, rfl⟩ := (parseMonthYear_ok_iff s t).1 h
  exact ⟨h1, h2, rfl, rfl, rfl, rfl, rfl⟩

theorem isDigit_iff_toNat (c : Char) : c.isDigit = true ↔ 48 ≤ c.toNat ∧ c.toNat ≤ 57 := by
  simp only [Char.isDigit, Bool.and_eq_true, decide_eq_true_eq, Char.toNat, ge_iff_le]
  rw [UInt32.le_def, UInt32.le_def]
  rfl

theorem char_ne_of_toNat_ne {c d : Char} (h : c.toNat ≠ d.toNat) : c ≠ d := by
  rintro rfl
  exact h rfl

theorem skipSpace_digit {c : Char} (cs : List Char) (h : c.isDigit = true) :
    skipSpace (c :: cs) = some (c :: cs) := by
  have hc := (isDigit_iff_toNat c).1 h
  have h1 : c ≠ '\n' := by
    apply char_ne_of_toNat_ne
    have : ('\n' : Char).toNat = 10 := rfl
    omega
  have h2 : isSpace c = false := by
    simp only [isSpace, Bool.or_eq_false_iff, Bool.and_eq_false_imp, beq_eq_false_iff_ne,
      decide_eq_true_eq, decide_eq_false_iff_not, ne_eq]
    omega
  simp [skipSpace, h1, h2]

theorem digit_not_sign {c : Char} (h : c.isDigit = true) : c ≠ '+' ∧ c ≠ '-' := by
  have hc := (isDigit_iff_toNat c).1 h
  have e1 : ('+' : Char).toNat = 43 := rfl
  have e2 : ('-' : Char).toNat = 45 := rfl
  constructor <;> apply char_ne_of_toNat_ne <;> omega

theorem digitVal_range {c : Char} (h : c.isDigit = true) : 0 ≤ digitVal c ∧ digitVal c ≤ 9 := by
  have hc := (isDigit_iff_toNat c).1 h
  have e : ('0' : Char).toNat = 48 := rfl
  simp only [digitVal, e]
  omega

theorem scanInt_two_digits {a b : Char} (rest : List Char) (ha : a.isDigit = true)
    (hb : b.isDigit = true) :
    scanInt 2 (a :: b :: rest) = some (digitVal a * 10 + digitVal b, rest) := by
  have ra := digitVal_range ha
  have rb := digitVal_range hb
  have e0 : ('0' : Char).toNat = 48 := rfl
  have hacc : acceptDigits 2 (a :: b :: rest) = ([a, b], rest) := by
    cases rest <;> simp [acceptDigits, isDecimalDigitRune, ha, hb]
  have hpd : parseDecimal [a, b] = some ((0 * 10 + (a.toNat - '0'.toNat)) * 10 +
      (b.toNat - '0'.toNat)) := by
    simp [parseDecimal, ha, hb]
  simp only [scanInt, skipSpace_digit _ ha, (digit_not_sign ha).1, (digit_not_sign ha).2,
    if_false, hacc, hpd]
  simp only [digitVal] at ra rb ⊢
  rw [if_neg (by norm_num), if_neg (by push_cast; omega)]
  simp only [Bool.false_eq_true, if_false, Option.some.injEq, Prod.mk.injEq, and_true]
  push_cast
  omega

theorem scanInt_four_digits {a b c d : Char} (ha : a.isDigit = true) (hb : b.isDigit = true)
    (hc : c.isDigit = true) (hd : d.isDigit = true) :
    scanInt 4 [a, b, c, d] =
      some (digitVal a * 1000 + digitVal b * 100 + digitVal c * 10 + digitVal d, []) := by
  have ra := digitVal_range ha
  have rb := digitVal_range hb
  have rc := digitVal_range hc
  have rd := digitVal_range hd
  have e0 : ('0' : Char).toNat = 48 := rfl
  have hacc : acceptDigits 4 [a, b, c, d] = ([a, b, c, d], []) := by
    simp [acceptDigits, isDecimalDigitRune, ha, hb, hc, hd]
  have hpd : parseDecimal [a, b, c, d] =
      some ((((0 * 10 + (a.toNat - '0'.toNat)) * 10 + (b.toNat - '0'.toNat)) * 10 +
        (c.toNat - '0'.toNat)) * 10 + (d.toNat - '0'.toNat)) := by
    simp [parseDecimal, ha, hb, hc, hd]
  simp only [scanInt, skipSpace_digit _ ha, (digit_not_sign ha).1, (digit_not_sign ha).2,
    if_false, hacc, hpd]
  simp only [digitVal] at ra rb rc rd ⊢
  rw [if_neg (by norm_num), if_neg (by push_cast; omega)]
  simp only [Bool.false_eq_true, if_false, Option.some.injEq, Prod.mk.injEq, and_true]
  push_cast
  omega

theorem sscanfMonthYear_of_shape {s : String} (h : matchesMMYYYY s = true) :
    sscanfMonthYear s.toList = some (fieldMM s, fieldYYYY s) := by
  unfold matchesMMYYYY at h
  unfold fieldMM fieldYYYY
  split at h
  · next a b hy c d e f heq =>
    simp only [Bool.and_eq_true, beq_iff_eq] at h
    obtain ⟨⟨⟨⟨⟨⟨ha, hb⟩, hh⟩, hc⟩, hd⟩, he⟩, hf⟩ := h
    subst hh
    rw [heq]
    simp [sscanfMonthYear, scanInt_two_digits _ ha hb, scanInt_four_digits hc hd he hf]
  · exact absurd h (by simp)

/-! ## Lemmas on the loop of Total -/

theorem wrap64_isInt64 (x : Int) : IsInt64 (wrap64 x) := by
  unfold IsInt64 wrap64
  omega

theorem wrap64_of_isInt64 {x : Int} (h : IsInt64 x) : wrap64 x = x := by
  unfold IsInt64 at h
  unfold wrap64
  omega

theorem wrap64_add_wrap64 (a b : Int) : wrap64 (a + wrap64 b) = wrap64 (a + b) := by
  unfold wrap64
  omega

theorem wrap64_wrap64_add (a b : Int) : wrap64 (wrap64 a + b) = wrap64 (a + b) := by
  unfold wrap64
  omega

theorem wrap64_wrap64 (a : Int) : wrap64 (wrap64 a) = wrap64 a :=
  wrap64_of_isInt64 (wrap64_isInt64 a)

theorem wrap64_sum_map_wrap64 {α : Type} (f : α → Int) (l : List α) :
    wrap64 ((l.map (fun x => wrap64 (f x))).sum) = wrap64 ((l.map f).sum) := by
  induction l with
  | nil => rfl
  | cons x xs ih =>
    simp only [List.map_cons, List.sum_cons]
    rw [wrap64_wrap64_add, ← wrap64_add_wrap64, ih, wrap64_add_wrap64]

theorem isInt64_zero : IsInt64 0 := by
  unfold IsInt64
  omega

theorem Time.before_cases {a b : Time} (ha : a.FirstOfMonth) (hb : b.FirstOfMonth) :
    (a.Before b = true ∧ monthIndex a < monthIndex b) ∨
      (a.Before b = false ∧ monthIndex b ≤ monthIndex a) := by
  cases h : a.Before b with
  | true => exact Or.inl ⟨rfl, (Time.before_iff_monthIndex_lt ha hb).1 h⟩
  | false => exact Or.inr ⟨rfl, (Time.before_eq_false_iff ha hb).1 h⟩

theorem totalStep_eq_wrap (F T : Time) {acc : Int} (hacc : IsInt64 acc) (r : Subscription) :
    totalStep F T acc r = wrap64 (acc + r.Price * monthsCharged F T r) := by
  unfold totalStep monthsCharged
  simp only []
  split
  · simp only [mul_zero, add_zero, wrap64_of_isInt64 hacc]
  · rw [wrap64_add_wrap64]

theorem contribution_eq_price_mul (F T : Time) (r : Subscription) :
    contribution F T r = wrap64 (r.Price * monthsCharged F T r) := by
  unfold contribution
  rw [totalStep_eq_wrap F T isInt64_zero, zero_add]

theorem totalStep_isInt64 (F T : Time) {acc : Int} (hacc : IsInt64 acc) (r : Subscription) :
    IsInt64 (totalStep F T acc r) := by
  rw [totalStep_eq_wrap F T hacc]
  exact wrap64_isInt64 _

theorem foldl_totalStep (F T : Time) (items : List Subscription) {acc : Int}
    (hacc : IsInt64 acc) :
    items.foldl (totalStep F T) acc =
      wrap64 (acc + (items.map (fun r => r.Price * monthsCharged F T r)).sum) := by
  induction items generalizing acc with
  | nil => simp only [List.foldl_nil, List.map_nil, List.sum_nil, add_zero,
      wrap64_of_isInt64 hacc]
  | cons r rs ih =>
    simp only [List.foldl_cons, List.map_cons, List.sum_cons]
    rw [ih (totalStep_isInt64 F T hacc r), totalStep_eq_wrap F T hacc, wrap64_wrap64_add,
      add_assoc]

theorem totalLoop_eq_wrap_sum (F T : Time) (items : List Subscription) :
    totalLoop F T items = wrap64 ((items.map (fun r => r.Price * monthsCharged F T r)).sum) := by
  unfold totalLoop
  rw [foldl_totalStep F T items isInt64_zero, zero_add]

theorem totalLoop_eq_wrap_sum_contribution (F T : Time) (items : List Subscription) :
    totalLoop F T items = wrap64 ((items.map (contribution F T)).sum) := by
  rw [totalLoop_eq_wrap_sum]
  have h : items.map (contribution F T) =
      items.map (fun r => wrap64 (r.Price * monthsCharged F T r)) :=
    List.map_congr_left (fun r _ => contribution_eq_price_mul F T r)
  rw [h, wrap64_sum_map_wrap64]

theorem totalLoop_isInt64 (F T : Time) (items : List Subscription) :
    IsInt64 (totalLoop F T items) := by
  rw [totalLoop_eq_wrap_sum]
  exact wrap64_isInt64 _

theorem monthsCharged_eq_clipped {F T : Time} (hF : F.FirstOfMonth) (hT : T.FirstOfMonth)
    {r : Subscription} (hr : r.DatesFirstOfMonth) :
    monthsCharged F T r =
      max 0 (monthsInclusive (r.StartDate.later F) ((endOr T r).earlier T)) := by
  obtain ⟨hs, he⟩ := hr
  have key : ∀ e : Time, e.FirstOfMonth →
      (if ((if e.Before T then e else T).Before F || r.StartDate.After T) = true then (0 : Int)
        else
          (if monthsBetweenInclusive (if r.StartDate.Before F then F else r.StartDate)
                (if e.Before T then e else T) < 0 then 0
            else monthsBetweenInclusive (if r.StartDate.Before F then F else r.StartDate)
                (if e.Before T then e else T))) =
      max 0 (monthsInclusive (r.StartDate.later F) (e.earlier T)) := by
    intro e hE
    rcases Time.before_cases hE hT with ⟨c1, k1⟩ | ⟨c1, k1⟩ <;>
      rcases Time.before_cases hs hF with ⟨c2, k2⟩ | ⟨c2, k2⟩ <;>
      rcases Time.before_cases hT hs with ⟨c3, k3⟩ | ⟨c3, k3⟩ <;>
      rcases Time.before_cases hE hF with ⟨c4, k4⟩ | ⟨c4, k4⟩ <;>
      rcases Time.before_cases hT hF with ⟨c5, k5⟩ | ⟨c5, k5⟩ <;>
      simp only [Time.later, Time.earlier, Time.After, c1, c2, c3, c4, c5, if_true, if_false,
        Bool.or_true, Bool.or_false, Bool.true_or, Bool.false_or, Bool.false_eq_true] <;>
      simp only [monthsBetweenInclusive, monthsInclusive, monthIndex] at * <;>
      (try split) <;> omega
  unfold monthsCharged endOr
  cases hE : r.EndDate with
  | none =>
    have := key T hT
    simp only [Time.before_irrefl, if_false, Bool.false_eq_true, Time.earlier] at this
    simpa only [Option.getD_none, Time.before_irrefl, Bool.false_eq_true, if_false,
      Time.earlier] using this
  | some e =>
    simpa only [Option.getD_some] using key e (he e hE)

/-! ## C1: the amount Total returns -/

/-- C1, refuted as stated: over one open-ended record of price 2^62 and the window January
2024 to February 2024, every record having first-of-month dates, the sum of `price * n` is
2^63, while `Service.Total` returns -2^63: the product wraps around in Go's 64-bit `int`. -/
theorem Total_wraps_around_in_int64 :
    parseMonthYear exampleQueryTwoMonths.From = .ok (Date 2024 1 1 0 0 0 0) ∧
    parseMonthYear exampleQueryTwoMonths.To = .ok (Date 2024 2 1 0 0 0 0) ∧
    (pgRepo Time.zero).List
        (totalFilters exampleQueryTwoMonths (Date 2024 1 1 0 0 0 0) (Date 2024 2 1 0 0 0 0))
        [exampleSubHuge] = .ok ([exampleSubHuge], 1) ∧
    exampleSubHuge.DatesFirstOfMonth ∧
    ([exampleSubHuge].map (fun r => r.Price *
        ((monthsWithin (r.StartDate.later (Date 2024 1 1 0 0 0 0))
          ((endOr (Date 2024 2 1 0 0 0 0) r).earlier (Date 2024 2 1 0 0 0 0))).ncard :
            Int))).sum = 9223372036854775808 ∧
    Service.Total (pgRepo Time.zero) exampleQueryTwoMonths [exampleSubHuge] =
      .ok (-9223372036854775808) := by
  refine ⟨by decide, by decide, by decide, ⟨by decide, fun e he => by cases he⟩, ?_, by decide⟩
  have hn := @ncard_monthsWithin
    (exampleSubHuge.StartDate.later (Date 2024 1 1 0 0 0 0))
    ((endOr (Date 2024 2 1 0 0 0 0) exampleSubHuge).earlier (Date 2024 2 1 0 0 0 0))
    (by decide) (by decide)
  simp only [List.map_cons, List.map_nil, List.sum_cons, List.sum_nil, add_zero, hn]
  decide

/-- C1, amended. For a window `F`, `T` parsed from the query and every list of records the
store returns whose dates are first-of-month, `Service.Total` returns the sum over the records
of `price * n` reduced to Go's 64-bit `int` (modulo 2^64, into `[-2^63, 2^63)`), and that sum
itself whenever it lies in this range; `n` is the number of calendar months `m` with
`max(start_date, F) <= m <= min(end_date or T, T)`, and equals
`max(0, months_inclusive(max(start_date, F), min(end_date or T, T)))`. -/
theorem Total_eq_wrapped_sum_price_times_months {σ : Type} (repo : Repo σ) (q : TotalQuery)
    (st : σ) (F T : Time) (items : List Subscription) (cnt : Int)
    (hF : parseMonthYear q.From = .ok F) (hT : parseMonthYear q.To = .ok T)
    (hL : repo.List (totalFilters q F T) st = .ok (items, cnt))
    (hwf : ∀ r ∈ items, r.DatesFirstOfMonth) :
    Service.Total repo q st =
        .ok (wrap64 ((items.map (fun r => r.Price *
          ((monthsWithin (r.StartDate.later F) ((endOr T r).earlier T)).ncard : Int))).sum)) ∧
      (IsInt64 ((items.map (fun r => r.Price *
          ((monthsWithin (r.StartDate.later F) ((endOr T r).earlier T)).ncard : Int))).sum) →
        Service.Total repo q st =
          .ok ((items.map (fun r => r.Price *
            ((monthsWithin (r.StartDate.later F) ((endOr T r).earlier T)).ncard :
              Int))).sum)) ∧
      ∀ r ∈ items,
        ((monthsWithin (r.StartDate.later F) ((endOr T r).earlier T)).ncard : Int) =
          max 0 (monthsInclusive (r.StartDate.later F) ((endOr T r).earlier T)) := by
  have hFm := parseMonthYear_firstOfMonth hF
  have hTm := parseMonthYear_firstOfMonth hT
  have hn : ∀ r ∈ items,
      ((monthsWithin (r.StartDate.later F) ((endOr T r).earlier T)).ncard : Int) =
        max 0 (monthsInclusive (r.StartDate.later F) ((endOr T r).earlier T)) := by
    intro r hr
    have hE : (endOr T r).FirstOfMonth := by
      unfold endOr
      cases hEnd : r.EndDate with
      | none => exact hTm
      | some e => exact (hwf r hr).2 e hEnd
    exact ncard_monthsWithin (Time.later_firstOfMonth (hwf r hr).1 hFm)
      (Time.earlier_firstOfMonth hE hTm)
  have hmap : items.map (fun r => r.Price * monthsCharged F T r) =
      items.map (fun r => r.Price *
        ((monthsWithin (r.StartDate.later F) ((endOr T r).earlier T)).ncard : Int)) := by
    apply List.map_congr_left
    intro r hr
    rw [monthsCharged_eq_clipped hFm hTm (hwf r hr), hn r hr]
  have hmain : Service.Total repo q st =
      .ok (wrap64 ((items.map (fun r => r.Price *
        ((monthsWithin (r.StartDate.later F) ((endOr T r).earlier T)).ncard : Int))).sum)) := by
    simp only [Service.Total, hF, hT, hL, totalLoop_eq_wrap_sum, hmap]
  refine ⟨hmain, ?_, hn⟩
  intro hrange
  rw [hmain, wrap64_of_isInt64 hrange]

/-- A witness of amended C1 on the PostgreSQL-backed repository holding the two records of
scenario 2 of the specification. -/
theorem Total_eq_wrapped_sum_price_times_months_witness :
    parseMonthYear exampleQuery.From = .ok (Date 2024 1 1 0 0 0 0) ∧
    parseMonthYear exampleQuery.To = .ok (Date 2024 3 1 0 0 0 0) ∧
    (pgRepo Time.zero).List
        (totalFilters exampleQuery (Date 2024 1 1 0 0 0 0) (Date 2024 3 1 0 0 0 0))
        [exampleSubA, exampleSubB] = .ok ([exampleSubB, exampleSubA], 2) ∧
    (∀ r ∈ [exampleSubB, exampleSubA], r.DatesFirstOfMonth) ∧
    Service.Total (pgRepo Time.zero) exampleQuery [exampleSubA, exampleSubB] =
      .ok (wrap64 (([exampleSubB, exampleSubA].map (fun r => r.Price *
        ((monthsWithin (r.StartDate.later (Date 2024 1 1 0 0 0 0))
          ((endOr (Date 2024 3 1 0 0 0 0) r).earlier (Date 2024 3 1 0 0 0 0))).ncard :
            Int))).sum)) ∧
    Service.Total (pgRepo Time.zero) exampleQuery [exampleSubA, exampleSubB] = .ok 500 := by
  have h1 : parseMonthYear exampleQuery.From = .ok (Date 2024 1 1 0 0 0 0) := by decide
  have h2 : parseMonthYear exampleQuery.To = .ok (Date 2024 3 1 0 0 0 0) := by decide
  have h3 : (pgRepo Time.zero).List
      (totalFilters exampleQuery (Date 2024 1 1 0 0 0 0) (Date 2024 3 1 0 0 0 0))
      [exampleSubA, exampleSubB] = .ok ([exampleSubB, exampleSubA], 2) := by decide
  have h4 : ∀ r ∈ [exampleSubB, exampleSubA], r.DatesFirstOfMonth := by
    intro r hr
    simp only [List.mem_cons, List.mem_singleton, List.not_mem_nil, or_false] at hr
    rcases hr with rfl | rfl
    · refine ⟨by decide, ?_⟩
      intro e he
      cases he
      decide
    · refine ⟨by decide, ?_⟩
      intro e he
      cases he
      decide
  exact ⟨h1, h2, h3, h4,
    (Total_eq_wrapped_sum_price_times_months (pgRepo Time.zero) exampleQuery
      [exampleSubA, exampleSubB] _ _ _ _ h1 h2 h3 h4).1, by decide⟩

/-! ## C2 and C3: the month-year parser -/

/-- C2, at the failing input. `parseMonthYear` accepts `"1-2024"`, which is not of the shape
`^\d{2}-\d{4}$`, and reads it as January 2024; `"01/2024"`, `"13-2024"` and the empty string
are rejected. -/
theorem parseMonthYear_accepts_one_digit_month :
    matchesMMYYYY "1-2024" = false ∧
    parseMonthYear "1-2024" = .ok (Date 2024 1 1 0 0 0 0) ∧
    parseMonthYear "01/2024" = .error "invalid month-year: 01/2024" ∧
    parseMonthYear "13-2024" = .error "invalid month: 13" ∧
    parseMonthYear "" = .error "invalid month-year: " := by
  decide

/-- C3. For every string of the exact shape `MM-YYYY`, `parseMonthYear` succeeds if and only
if `1 <= MM <= 12`, and a successful result has year `YYYY`, month `MM`, day 1 and time
00:00:00.000000000 (UTC). -/
theorem parseMonthYear_of_shape (s : String) (h : matchesMMYYYY s = true) :
    ((∃ t, parseMonthYear s = .ok t) ↔ (1 ≤ fieldMM s ∧ fieldMM s ≤ 12)) ∧
    ∀ t, parseMonthYear s = .ok t →
      t.year = fieldYYYY s ∧ t.month = fieldMM s ∧ t.day = 1 ∧ t.hour = 0 ∧ t.minute = 0 ∧
        t.second = 0 ∧ t.nsec = 0 := by
  have hs := sscanfMonthYear_of_shape h
  constructor
  · constructor
    · rintro ⟨t, ht⟩
      obtain ⟨mm, yyyy, h0, h1, h2, -⟩ := (parseMonthYear_ok_iff s t).1 ht
      rw [hs] at h0
      simp only [Option.some.injEq, Prod.mk.injEq] at h0
      obtain ⟨e1, -⟩ := h0
      rw [e1]
      exact ⟨h1, h2⟩
    · rintro ⟨h1, h2⟩
      exact ⟨_, (parseMonthYear_ok_iff s _).2 ⟨_, _, hs, h1, h2, rfl⟩⟩
  · intro t ht
    obtain ⟨mm, yyyy, h0, -, -, rfl⟩ := (parseMonthYear_ok_iff s t).1 ht
    rw [hs] at h0
    simp only [Option.some.injEq, Prod.mk.injEq] at h0
    obtain ⟨e1, e2⟩ := h0
    exact ⟨e2.symm, e1.symm, rfl, rfl, rfl, rfl, rfl⟩

/-- A witness of C3: `"07-2024"` has the shape and parses to the first moment of July 2024. -/
theorem parseMonthYear_of_shape_witness :
    matchesMMYYYY "07-2024" = true ∧
    ((∃ t, parseMonthYear "07-2024" = .ok t) ↔ (1 ≤ fieldMM "07-2024" ∧ fieldMM "07-2024" ≤ 12)) ∧
    parseMonthYear "07-2024" = .ok ⟨2024, 7, 1, 0, 0, 0, 0⟩ :=
  ⟨by decide, (parseMonthYear_of_shape "07-2024" (by decide)).1, by decide⟩

/-! ## C4, C5 and C6: additivity, clipping, inverted windows -/

/-- C4. The loop of `Total` is additive over the records: for a fixed window the amount over
`xs ++ ys` is the amount over `xs` plus the amount over `ys`, the plus being Go's `+` on
`int` (the exact sum when that lies in the 64-bit range); for one record each it is the sum of
the two amounts taken alone; and the amount does not depend on the order of the records. -/
theorem totalLoop_additive (F T : Time) (xs ys : List Subscription) :
    totalLoop F T (xs ++ ys) = wrap64 (totalLoop F T xs + totalLoop F T ys) ∧
    (IsInt64 (totalLoop F T xs + totalLoop F T ys) →
      totalLoop F T (xs ++ ys) = totalLoop F T xs + totalLoop F T ys) ∧
    (∀ a b : Subscription,
      totalLoop F T [a, b] = wrap64 (totalLoop F T [a] + totalLoop F T [b])) ∧
    (∀ zs : List Subscription, List.Perm xs zs → totalLoop F T xs = totalLoop F T zs) := by
  have happ : ∀ us vs : List Subscription,
      totalLoop F T (us ++ vs) = wrap64 (totalLoop F T us + totalLoop F T vs) := by
    intro us vs
    simp only [totalLoop_eq_wrap_sum, List.map_append, List.sum_append]
    rw [wrap64_wrap64_add, wrap64_add_wrap64]
  refine ⟨happ xs ys, ?_, ?_, ?_⟩
  · intro h
    rw [happ xs ys, wrap64_of_isInt64 h]
  · intro a b
    exact happ [a] [b]
  · intro zs hp
    simp only [totalLoop_eq_wrap_sum]
    rw [(hp.map _).sum_eq]

/-- A witness of C4 on the records of scenario 2: the swapped list is a permutation and gives
the same amount, 500. -/
theorem totalLoop_additive_witness :
    List.Perm [exampleSubA, exampleSubB] [exampleSubB, exampleSubA] ∧
    totalLoop (Date 2024 1 1 0 0 0 0) (Date 2024 3 1 0 0 0 0) [exampleSubA, exampleSubB] =
      totalLoop (Date 2024 1 1 0 0 0 0) (Date 2024 3 1 0 0 0 0) [exampleSubB, exampleSubA] ∧
    totalLoop (Date 2024 1 1 0 0 0 0) (Date 2024 3 1 0 0 0 0) [exampleSubA, exampleSubB] = 500 :=
  ⟨List.Perm.swap _ _ _,
    (totalLoop_additive (Date 2024 1 1 0 0 0 0) (Date 2024 3 1 0 0 0 0)
      [exampleSubA, exampleSubB] []).2.2.2 _ (List.Perm.swap _ _ _),
    by decide⟩

/-- C5, refuted as stated: for the window January 2024 to February 2024 and the open-ended
record of price 2^62 that starts at `F`, `price * months_inclusive(F, T)` is 2^63, while the
record contributes -2^63: the product wraps around in Go's 64-bit `int`. -/
theorem contribution_wraps_around_in_int64 :
    (Date 2024 1 1 0 0 0 0).FirstOfMonth ∧ (Date 2024 2 1 0 0 0 0).FirstOfMonth ∧
    (Date 2024 2 1 0 0 0 0).Before (Date 2024 1 1 0 0 0 0) = false ∧
    (Date 2024 1 1 0 0 0 0).Before exampleSubHuge.StartDate = false ∧
    exampleSubHuge.EndDate = none ∧
    exampleSubHuge.Price * monthsInclusive (Date 2024 1 1 0 0 0 0) (Date 2024 2 1 0 0 0 0) =
      9223372036854775808 ∧
    contribution (Date 2024 1 1 0 0 0 0) (Date 2024 2 1 0 0 0 0) exampleSubHuge =
      -9223372036854775808 := by
  decide

/-- C5, amended. `Total` clips a record to the window: for a first-of-month window `F <= T`
and a record with `start_date <= F` whose `end_date`, when present, is `>= T`, the record
contributes `price * months_inclusive(F, T)` reduced to Go's 64-bit `int`, and exactly
`price * months_inclusive(F, T)` whenever that product lies in the 64-bit range, wherever
`start_date` lies before `F` and `end_date` after `T`. -/
theorem contribution_of_covering_record (F T : Time) (r : Subscription)
    (hF : F.FirstOfMonth) (hT : T.FirstOfMonth) (hFT : T.Before F = false)
    (hs : F.Before r.StartDate = false)
    (he : ∀ e, r.EndDate = some e → e.Before T = false) :
    contribution F T r = wrap64 (r.Price * monthsInclusive F T) ∧
      (IsInt64 (r.Price * monthsInclusive F T) →
        contribution F T r = r.Price * monthsInclusive F T) := by
  have hend : (match r.EndDate with
      | some e => if e.Before T then e else T
      | none => T) = T := by
    cases hE : r.EndDate with
    | none => rfl
    | some e => simp only [he e hE, Bool.false_eq_true, if_false]
  have hstart : (if r.StartDate.Before F then F else r.StartDate) = F := by
    cases hb : r.StartDate.Before F with
    | true => simp
    | false => simpa using Time.eq_of_not_before hb hs
  have hTs : T.Before r.StartDate = false := by
    cases hb : T.Before r.StartDate with
    | false => rfl
    | true =>
      cases hc : F.Before T with
      | true => rw [Time.before_trans hc hb] at hs; exact absurd hs (by simp)
      | false =>
        rw [← Time.eq_of_not_before hc hFT] at hb
        rw [hb] at hs
        exact absurd hs (by simp)
  have hpos : ¬ monthsBetweenInclusive F T < 0 := by
    have := (Time.before_eq_false_iff hT hF).1 hFT
    simp only [monthIndex] at this
    simp only [monthsBetweenInclusive]
    omega
  have hm : monthsCharged F T r = monthsInclusive F T := by
    unfold monthsCharged
    simp only [hend, hstart, hFT, Time.After, hTs, Bool.or_self, Bool.false_eq_true, if_false,
      if_neg hpos]
    simp only [monthsBetweenInclusive, monthsInclusive]
    omega
  have hmain : contribution F T r = wrap64 (r.Price * monthsInclusive F T) := by
    rw [contribution_eq_price_mul, hm]
  refine ⟨hmain, ?_⟩
  intro hrange
  rw [hmain, wrap64_of_isInt64 hrange]

/-- A witness of amended C5: the window March 2024 to July 2024 spans 5 months; a record of
price 100 from December 2023 (`F` - 3 months) to October 2024 (`T` + 3 months) contributes
500. -/
theorem contribution_of_covering_record_witness :
    (Date 2024 3 1 0 0 0 0).FirstOfMonth ∧ (Date 2024 7 1 0 0 0 0).FirstOfMonth ∧
    (Date 2024 7 1 0 0 0 0).Before (Date 2024 3 1 0 0 0 0) = false ∧
    (Date 2024 3 1 0 0 0 0).Before exampleSubWide.StartDate = false ∧
    (∀ e, exampleSubWide.EndDate = some e → e.Before (Date 2024 7 1 0 0 0 0) = false) ∧
    IsInt64 (exampleSubWide.Price *
      monthsInclusive (Date 2024 3 1 0 0 0 0) (Date 2024 7 1 0 0 0 0)) ∧
    contribution (Date 2024 3 1 0 0 0 0) (Date 2024 7 1 0 0 0 0) exampleSubWide =
      exampleSubWide.Price * monthsInclusive (Date 2024 3 1 0 0 0 0) (Date 2024 7 1 0 0 0 0) ∧
    exampleSubWide.Price * monthsInclusive (Date 2024 3 1 0 0 0 0) (Date 2024 7 1 0 0 0 0) =
      500 := by
  have h5 : ∀ e, exampleSubWide.EndDate = some e → e.Before (Date 2024 7 1 0 0 0 0) = false := by
    intro e he
    cases he
    decide
  exact ⟨by decide, by decide, by decide, by decide, h5, by decide,
    (contribution_of_covering_record _ _ exampleSubWide (by decide) (by decide) (by decide)
      (by decide) h5).2 (by decide), by decide⟩

/-- C6. When `from > to`, both valid month strings, `Total` returns the amount 0 and no
error, whatever records the store returns. -/
theorem Total_zero_of_inverted_window {σ : Type} (repo : Repo σ) (q : TotalQuery) (st : σ)
    (F T : Time) (items : List Subscription) (cnt : Int)
    (hF : parseMonthYear q.From = .ok F) (hT : parseMonthYear q.To = .ok T)
    (hgt : T.Before F = true)
    (hL : repo.List (totalFilters q F T) st = .ok (items, cnt)) :
    Service.Total repo q st = .ok 0 := by
  have hz : ∀ r : Subscription, r.Price * monthsCharged F T r = 0 := by
    intro r
    unfold monthsCharged
    have hend : (match r.EndDate with
        | some e => if e.Before T then e else T
        | none => T).Before F = true := by
      cases r.EndDate with
      | none => exact hgt
      | some e =>
        by_cases hb : e.Before T = true
        · simp only [if_pos hb]
          exact Time.before_trans hb hgt
        · simp only [if_neg hb]
          exact hgt
    simp only [hend, Bool.true_or, if_true, mul_zero]
  have hsum : (items.map (fun r => r.Price * monthsCharged F T r)).sum = 0 := by
    apply List.sum_eq_zero
    intro x hx
    obtain ⟨r, -, rfl⟩ := List.mem_map.1 hx
    exact hz r
  have hw : wrap64 0 = 0 := by decide
  simp only [Service.Total, hF, hT, hL, totalLoop_eq_wrap_sum, hsum, hw]

/-- A witness of C6: the window March 2024 down to January 2024 over the records of
scenario 2. -/
theorem Total_zero_of_inverted_window_witness :
    parseMonthYear exampleQueryInverted.From = .ok (Date 2024 3 1 0 0 0 0) ∧
    parseMonthYear exampleQueryInverted.To = .ok (Date 2024 1 1 0 0 0 0) ∧
    (Date 2024 1 1 0 0 0 0).Before (Date 2024 3 1 0 0 0 0) = true ∧
    (pgRepo Time.zero).List
        (totalFilters exampleQueryInverted (Date 2024 3 1 0 0 0 0) (Date 2024 1 1 0 0 0 0))
        [exampleSubA, exampleSubB] = .ok ([exampleSubA], 1) ∧
    Service.Total (pgRepo Time.zero) exampleQueryInverted [exampleSubA, exampleSubB] = .ok 0 :=
  ⟨by decide, by decide, by decide, by decide,
    Total_zero_of_inverted_window (pgRepo Time.zero) exampleQueryInverted
      [exampleSubA, exampleSubB] (Date 2024 3 1 0 0 0 0) (Date 2024 1 1 0 0 0 0) [exampleSubA] 1
      (by decide) (by decide) (by decide) (by decide)⟩

/-! ## C7: the page limit of Total -/

theorem Service_Total_pgRepo (now : Time) (q : TotalQuery) (rows : List Subscription)
    (F T : Time) (hF : parseMonthYear q.From = .ok F) (hT : parseMonthYear q.To = .ok T) :
    Service.Total (pgRepo now) q rows =
      .ok (totalLoop F T
        (((rows.filter (matchesFilters (totalFilters q F T))).insertionSort createdDesc).take
          100000)) := by
  have h1 : ¬ ((100000 : Int) < 0) := by norm_num
  have h2 : (100000 : Int).toNat = 100000 := rfl
  simp only [Service.Total, hF, hT, pgRepo, SubscriptionRepository.List, totalFilters, h1,
    if_false, lt_self_iff_false, Int.toNat_zero, List.drop_zero, h2]

theorem sum_map_of_const {α : Type} (f : α → Int) (c : Int) (l : List α)
    (h : ∀ x ∈ l, f x = c) : (l.map f).sum = l.length * c := by
  induction l with
  | nil => simp
  | cons x xs ih =>
    simp only [List.map_cons, List.sum_cons, List.length_cons]
    rw [h x (List.mem_cons_self x xs), ih (fun y hy => h y (List.mem_cons_of_mem x hy))]
    push_cast
    ring

theorem manyRows_matches (r : Subscription) (hr : r ∈ manyRows) :
    matchesFilters (totalFilters exampleQueryJanuary (Date 2024 1 1 0 0 0 0)
      (Date 2024 1 1 0 0 0 0)) r = true ∧
    contribution (Date 2024 1 1 0 0 0 0) (Date 2024 1 1 0 0 0 0) r = 1 := by
  obtain ⟨i, -, rfl⟩ := List.mem_map.1 hr
  exact ⟨rfl, rfl⟩

/-- C7, refuted as stated: over a table of 100001 matching records that contribute 1 each,
`Total` returns 100000, while the sum over every matching record is 100001. -/
theorem Total_misses_records_beyond_page_limit :
    Service.Total (pgRepo Time.zero) exampleQueryJanuary manyRows = .ok 100000 ∧
    ((manyRows.filter (matchesFilters (totalFilters exampleQueryJanuary
        (Date 2024 1 1 0 0 0 0) (Date 2024 1 1 0 0 0 0)))).map
      (contribution (Date 2024 1 1 0 0 0 0) (Date 2024 1 1 0 0 0 0))).sum = 100001 := by
  have hfilter : manyRows.filter (matchesFilters (totalFilters exampleQueryJanuary
      (Date 2024 1 1 0 0 0 0) (Date 2024 1 1 0 0 0 0))) = manyRows :=
    List.filter_eq_self.2 (fun r hr => (manyRows_matches r hr).1)
  have hlen : manyRows.length = 100001 := by
    simp only [manyRows, List.length_map, List.length_range]
  constructor
  · rw [Service_Total_pgRepo Time.zero exampleQueryJanuary manyRows (Date 2024 1 1 0 0 0 0)
      (Date 2024 1 1 0 0 0 0) (by decide) (by decide), hfilter,
      totalLoop_eq_wrap_sum_contribution, sum_map_of_const _ 1]
    · simp only [List.length_take, List.length_insertionSort, hlen]
      have hw : wrap64 100000 = 100000 := by decide
      norm_num [hw]
    · intro r hr
      have hr1 : r ∈ manyRows.insertionSort createdDesc := List.mem_of_mem_take hr
      exact (manyRows_matches r ((List.perm_insertionSort createdDesc manyRows).mem_iff.1 hr1)).2
  · rw [hfilter, sum_map_of_const _ 1 manyRows (fun r hr => (manyRows_matches r hr).2), hlen]
    norm_num

/-- C7, amended. Over the PostgreSQL-backed repository `Total` sums, with Go's `+` on `int`,
the contributions of the first 100000 matching records in `created_at` descending order;
whenever at most 100000 stored records satisfy the user_id, service_name, from and to
predicates, that is the amount of the loop over every stored record satisfying them: the sum
of their contributions in Go's 64-bit `int`, and that sum itself when it lies in the 64-bit
range. -/
theorem Total_eq_sum_of_matching_within_limit (now : Time) (q : TotalQuery)
    (rows : List Subscription) (F T : Time)
    (hF : parseMonthYear q.From = .ok F) (hT : parseMonthYear q.To = .ok T) :
    Service.Total (pgRepo now) q rows =
        .ok (wrap64 (((((rows.filter (matchesFilters (totalFilters q F T))).insertionSort
          createdDesc).take 100000).map (contribution F T)).sum)) ∧
      ((rows.filter (matchesFilters (totalFilters q F T))).length ≤ 100000 →
        Service.Total (pgRepo now) q rows =
            .ok (totalLoop F T (rows.filter (matchesFilters (totalFilters q F T)))) ∧
          Service.Total (pgRepo now) q rows =
            .ok (wrap64 (((rows.filter (matchesFilters (totalFilters q F T))).map
              (contribution F T)).sum)) ∧
          (IsInt64 (((rows.filter (matchesFilters (totalFilters q F T))).map
              (contribution F T)).sum) →
            Service.Total (pgRepo now) q rows =
              .ok (((rows.filter (matchesFilters (totalFilters q F T))).map
                (contribution F T)).sum))) := by
  have h := Service_Total_pgRepo now q rows F T hF hT
  rw [totalLoop_eq_wrap_sum_contribution] at h
  refine ⟨h, ?_⟩
  intro hcap
  have hall : Service.Total (pgRepo now) q rows =
      .ok (wrap64 (((rows.filter (matchesFilters (totalFilters q F T))).map
        (contribution F T)).sum)) := by
    rw [h, List.take_of_length_le (by rw [List.length_insertionSort]; exact hcap),
      ((List.perm_insertionSort createdDesc _).map _).sum_eq]
  refine ⟨?_, hall, ?_⟩
  · rw [hall, totalLoop_eq_wrap_sum_contribution]
  · intro hrange
    rw [hall, wrap64_of_isInt64 hrange]

/-- A witness of amended C7 on the two records of scenario 2. -/
theorem Total_eq_sum_of_matching_within_limit_witness :
    parseMonthYear exampleQuery.From = .ok (Date 2024 1 1 0 0 0 0) ∧
    parseMonthYear exampleQuery.To = .ok (Date 2024 3 1 0 0 0 0) ∧
    ([exampleSubA, exampleSubB].filter (matchesFilters (totalFilters exampleQuery
      (Date 2024 1 1 0 0 0 0) (Date 2024 3 1 0 0 0 0)))).length ≤ 100000 ∧
    IsInt64 ((([exampleSubA, exampleSubB].filter (matchesFilters (totalFilters exampleQuery
      (Date 2024 1 1 0 0 0 0) (Date 2024 3 1 0 0 0 0)))).map
        (contribution (Date 2024 1 1 0 0 0 0) (Date 2024 3 1 0 0 0 0))).sum) ∧
    Service.Total (pgRepo Time.zero) exampleQuery [exampleSubA, exampleSubB] =
      .ok ((([exampleSubA, exampleSubB].filter (matchesFilters (totalFilters exampleQuery
        (Date 2024 1 1 0 0 0 0) (Date 2024 3 1 0 0 0 0)))).map
          (contribution (Date 2024 1 1 0 0 0 0) (Date 2024 3 1 0 0 0 0))).sum) :=
  ⟨by decide, by decide, by decide, by decide,
    ((Total_eq_sum_of_matching_within_limit Time.zero exampleQuery [exampleSubA, exampleSubB]
      (Date 2024 1 1 0 0 0 0) (Date 2024 3 1 0 0 0 0) (by decide) (by decide)).2
        (by decide)).2.2 (by decide)⟩

/-! ## C8 and C9: identifiers in the HTTP adapter -/

theorem lookup_filter_ne (key k : String) (l : List (String × String)) (h : k ≠ key) :
    (l.filter (fun p => p.1 != key)).lookup k = l.lookup k := by
  induction l with
  | nil => rfl
  | cons p ps ih =>
    obtain ⟨a, b⟩ := p
    by_cases ha : a = key
    · subst ha
      have hk : (k == a) = false := by simpa using h
      simp only [List.filter, bne_self_eq_false, List.lookup, hk, ih]
    · have hne : (a != key) = true := by simpa using ha
      simp only [List.filter, hne, List.lookup]
      cases hk : (k == a) with
      | true => rfl
      | false => exact ih

theorem lookup_filter_self (key : String) (l : List (String × String)) :
    (l.filter (fun p => p.1 != key)).lookup key = none := by
  induction l with
  | nil => rfl
  | cons p ps ih =>
    obtain ⟨a, b⟩ := p
    by_cases ha : a = key
    · subst ha
      simp only [List.filter, bne_self_eq_false, ih]
    · have hne : (a != key) = true := by simpa using ha
      have hk : (key == a) = false := by simpa using fun h => ha h.symm
      simp only [List.filter, hne, List.lookup, hk, ih]

theorem queryGet_dropQueryParam_ne (r : Request) (key k : String) (h : k ≠ key) :
    queryGet (dropQueryParam r key) k = queryGet r k := by
  simp only [queryGet, dropQueryParam, lookup_filter_ne key k r.query h]

theorem queryGet_dropQueryParam_self (r : Request) (key : String) :
    queryGet (dropQueryParam r key) key = "" := by
  simp only [queryGet, dropQueryParam, lookup_filter_self]

theorem userIDParam_of_unparseable (parse : String → Option UUID) (r : Request)
    (h : parse (queryGet r "user_id") = none) : userIDParam parse r = none := by
  unfold userIDParam
  split
  · rw [h]
  · rfl

theorem userIDParam_dropQueryParam (parse : String → Option UUID) (r : Request) :
    userIDParam parse (dropQueryParam r "user_id") = none := by
  simp [userIDParam, queryGet_dropQueryParam_self]

theorem Handlers_Update_of_fetch_error {σ : Type} (parse : String → Option UUID) (repo : Repo σ)
    (r : Request) (st : σ) (id : UUID) (req : CreateRequest) (start : Time) (e : String)
    (hid : parse r.id = some id) (hbody : r.body = some req)
    (hstart : parseMonthYear req.StartDate = .ok start)
    (hend : ∀ es, req.EndDate = some es → ∃ en, parseMonthYear es = .ok en)
    (hfetch : repo.GetByID id st = .error e) :
    Handlers.Update parse repo r st = (writeJSON 400 (.errors 400 e), st) := by
  unfold Handlers.Update Service.Update
  simp only [hid, hbody, hstart]
  cases hE : req.EndDate with
  | none => simp only [hfetch]
  | some es =>
    obtain ⟨en, hen⟩ := hend es hE
    simp only [hen, hfetch]

/-- C8, at the failing input. `PUT /{id}` with a parseable id and a valid body, on a store
that holds no subscription with that id: `Service.Update` fails with "not found" and the
`Update` handler answers 400 with an envelope of code 400, while `GetByID` and `Delete`
answer 404 for the same id. -/
theorem Update_absent_id_responds_400 :
    uuidParse examplePut.id = some ⟨1⟩ ∧
    Service.Update (pgRepo Time.zero) ⟨1⟩
      { ServiceName := "netflix", Price := 499, UserID := ⟨7⟩, StartDate := "07-2024",
        EndDate := none } [exampleSubB] = (.error "not found", [exampleSubB]) ∧
    Handlers.Update uuidParse (pgRepo Time.zero) examplePut [exampleSubB] =
      (⟨400, .errors 400 "not found"⟩, [exampleSubB]) ∧
    Handlers.GetByID uuidParse (pgRepo Time.zero) examplePut [exampleSubB] =
      (⟨404, .errors 404 "not found"⟩, [exampleSubB]) ∧
    Handlers.Delete uuidParse (pgRepo Time.zero) examplePut [exampleSubB] =
      (⟨404, .errors 404 "not found"⟩, [exampleSubB]) := by
  refine ⟨by decide, by decide, ?_, by decide, by decide⟩
  exact Handlers_Update_of_fetch_error uuidParse (pgRepo Time.zero) examplePut [exampleSubB] ⟨1⟩
    exampleBody (Date 2024 7 1 0 0 0 0) "not found" (by decide) rfl (by decide)
    (fun es h => by cases h) (by decide)

/-- C9, refuted as stated: `GET /total?from=01-2024&to=03-2024&user_id=not-a-uuid` is answered
200 with the amount over the subscriptions of every user, and `GET /?user_id=not-a-uuid` is
answered 200 with the unfiltered page. -/
theorem unparseable_user_id_is_dropped :
    uuidParse "not-a-uuid" = none ∧
    Handlers.Total uuidParse (pgRepo Time.zero) exampleTotalBadUser
        [exampleSubA, exampleSubB, exampleSubOther] =
      (⟨200, .total 3500⟩, [exampleSubA, exampleSubB, exampleSubOther]) ∧
    Handlers.List uuidParse (pgRepo Time.zero) exampleListBadUser
        [exampleSubA, exampleSubOther] =
      (⟨200, .list [toDTO exampleSubOther, toDTO exampleSubA] 2⟩,
        [exampleSubA, exampleSubOther]) := by
  decide

/-- C9, amended. An unparseable `{id}` path parameter of GET, PUT and DELETE `/{id}` yields
400 "invalid id" whatever the repository and the store, which is left as it was; in `List`
and `Total` a `user_id` query value that does not parse is treated as absent: the handler
answers as it does for the same request without `user_id`. -/
theorem unparseable_id_handling {σ : Type} (parse : String → Option UUID) (repo : Repo σ)
    (r : Request) (st : σ) :
    (parse r.id = none →
      Handlers.GetByID parse repo r st = (⟨400, .errors 400 "invalid id"⟩, st) ∧
      Handlers.Update parse repo r st = (⟨400, .errors 400 "invalid id"⟩, st) ∧
      Handlers.Delete parse repo r st = (⟨400, .errors 400 "invalid id"⟩, st)) ∧
    (parse (queryGet r "user_id") = none →
      Handlers.List parse repo r st = Handlers.List parse repo (dropQueryParam r "user_id") st ∧
      Handlers.Total parse repo r st =
        Handlers.Total parse repo (dropQueryParam r "user_id") st) := by
  constructor
  · intro h
    simp only [Handlers.GetByID, Handlers.Update, Handlers.Delete, h, writeJSON, and_self]
  · intro h
    have e1 := userIDParam_of_unparseable parse r h
    have e2 := userIDParam_dropQueryParam parse r
    have hq : ∀ k : String, k ≠ "user_id" →
        queryGet (dropQueryParam r "user_id") k = queryGet r k :=
      fun k hk => queryGet_dropQueryParam_ne r "user_id" k hk
    constructor
    · simp only [Handlers.List, e1, e2, serviceNameParam, stringParam, intParam,
        hq "service_name" (by decide), hq "from" (by decide), hq "to" (by decide),
        hq "limit" (by decide), hq "offset" (by decide)]
    · simp only [Handlers.Total, e1, e2, serviceNameParam,
        hq "service_name" (by decide), hq "from" (by decide), hq "to" (by decide)]

/-- A witness of amended C9: `exampleBadId` for the path parameter, `exampleTotalBadUser` for
the query parameter. -/
theorem unparseable_id_handling_witness :
    uuidParse exampleBadId.id = none ∧
    Handlers.GetByID uuidParse (pgRepo Time.zero) exampleBadId [exampleSubA] =
      (⟨400, .errors 400 "invalid id"⟩, [exampleSubA]) ∧
    uuidParse (queryGet exampleTotalBadUser "user_id") = none ∧
    Handlers.Total uuidParse (pgRepo Time.zero) exampleTotalBadUser [exampleSubA] =
      Handlers.Total uuidParse (pgRepo Time.zero)
        (dropQueryParam exampleTotalBadUser "user_id") [exampleSubA] :=
  ⟨by decide,
    ((unparseable_id_handling uuidParse (pgRepo Time.zero) exampleBadId [exampleSubA]).1
      (by decide)).1,
    by decide,
    ((unparseable_id_handling uuidParse (pgRepo Time.zero) exampleTotalBadUser
      [exampleSubA]).2 (by decide)).2⟩

/-! ## C10: what Create and Update check -/

theorem parsed_dates_firstOfMonth {req : CreateInput} {start : Time} {endPtr : Option Time}
    (h1 : parseMonthYear req.StartDate = .ok start)
    (h2 : parseEndDate req.EndDate = .ok endPtr) (r : Subscription)
    (hs : r.StartDate = start) (he : r.EndDate = endPtr) : r.DatesFirstOfMonth := by
  refine ⟨hs ▸ parseMonthYear_firstOfMonth h1, ?_⟩
  intro e hE
  unfold parseEndDate at h2
  cases hreq : req.EndDate with
  | none =>
    simp only [hreq, Except.ok.injEq] at h2
    rw [he, ← h2] at hE
    cases hE
  | some es =>
    simp only [hreq] at h2
    cases hp : parseMonthYear es with
    | error msg => simp only [hp] at h2; cases h2
    | ok en =>
      simp only [hp, Except.ok.injEq] at h2
      rw [he, ← h2, Option.some.injEq] at hE
      exact hE ▸ parseMonthYear_firstOfMonth hp

theorem Service_Create_eq {σ : Type} (repo : Repo σ) (newID : UUID) (req : CreateInput) (st : σ) :
    Service.Create repo newID req st =
      match parseMonthYear req.StartDate with
      | .error e => (.error e, st)
      | .ok start =>
        match parseEndDate req.EndDate with
        | .error e => (.error e, st)
        | .ok endPtr =>
          repo.Create
            { ID := newID, ServiceName := req.ServiceName, Price := req.Price,
              UserID := req.UserID, StartDate := start, EndDate := endPtr,
              CreatedAt := Time.zero, UpdatedAt := Time.zero } st := by
  unfold Service.Create parseEndDate
  cases parseMonthYear req.StartDate with
  | error e => rfl
  | ok start =>
    simp only []
    cases req.EndDate with
    | none =>
      simp only []
      split <;> simp_all
    | some es =>
      simp only []
      cases parseMonthYear es with
      | error e => rfl
      | ok en =>
        simp only []
        split <;> simp_all

theorem Service_Update_eq {σ : Type} (repo : Repo σ) (id : UUID) (req : CreateInput) (st : σ) :
    Service.Update repo id req st =
      match parseMonthYear req.StartDate with
      | .error e => (.error e, st)
      | .ok start =>
        match parseEndDate req.EndDate with
        | .error e => (.error e, st)
        | .ok endPtr =>
          match repo.GetByID id st with
          | .error e => (.error e, st)
          | .ok existing =>
            repo.Update
              { existing with ServiceName := req.ServiceName, Price := req.Price,
                              UserID := req.UserID, StartDate := start, EndDate := endPtr } st := by
  unfold Service.Update parseEndDate
  cases parseMonthYear req.StartDate with
  | error e => rfl
  | ok start =>
    simp only []
    cases req.EndDate with
    | none =>
      simp only []
      cases repo.GetByID id st with
      | error e => rfl
      | ok existing =>
        simp only []
        split <;> simp_all
    | some es =>
      simp only []
      cases parseMonthYear es with
      | error e => rfl
      | ok en =>
        simp only []
        cases repo.GetByID id st with
        | error e => rfl
        | ok existing =>
          simp only []
          split <;> simp_all

/-- C10, refuted as stated: `Create` given an empty `service_name` and the price -5 returns no
error and the record is stored as given; `Update` of a stored record with the same input
stores the empty name and the negative price as well. -/
theorem Create_stores_empty_name_and_negative_price :
    Service.Create (pgRepo (Date 2024 7 2 8 0 0 0)) ⟨9⟩ exampleBadInput [] =
      (.ok (exampleBadRecord (Date 2024 7 2 8 0 0 0)),
        [exampleBadRecord (Date 2024 7 2 8 0 0 0)]) ∧
    (exampleBadRecord (Date 2024 7 2 8 0 0 0)).ServiceName = "" ∧
    (exampleBadRecord (Date 2024 7 2 8 0 0 0)).Price < 0 ∧
    Service.Update (pgRepo (Date 2024 7 2 8 0 0 0)) ⟨2⟩ exampleBadInput [exampleSubB] =
      (.ok { exampleBadRecord (Date 2024 7 2 8 0 0 0) with
              ID := ⟨2⟩, CreatedAt := exampleSubB.CreatedAt },
        [{ exampleBadRecord (Date 2024 7 2 8 0 0 0) with
              ID := ⟨2⟩, CreatedAt := exampleSubB.CreatedAt }]) := by
  decide

/-- C10, amended. `Create` and `Update` check the date strings only. When `start_date`
parses, and `end_date` when present, the record handed to the store carries `service_name`
and `price` as the input gives them, for `Update` on top of the fetched record; when a date
does not parse the error is returned and the store is left as it was, whatever the
repository. -/
theorem Create_Update_validate_dates_only {σ : Type} (repo : Repo σ) (newID id : UUID)
    (req : CreateInput) (st : σ) :
    (∀ start endPtr, parseMonthYear req.StartDate = .ok start →
      parseEndDate req.EndDate = .ok endPtr →
      Service.Create repo newID req st =
        repo.Create
          { ID := newID, ServiceName := req.ServiceName, Price := req.Price,
            UserID := req.UserID, StartDate := start, EndDate := endPtr,
            CreatedAt := Time.zero, UpdatedAt := Time.zero } st ∧
      ∀ existing, repo.GetByID id st = .ok existing →
        Service.Update repo id req st =
          repo.Update
            { existing with ServiceName := req.ServiceName, Price := req.Price,
                            UserID := req.UserID, StartDate := start, EndDate := endPtr } st) ∧
    (∀ e, (parseMonthYear req.StartDate = .error e ∨
        ((∃ start, parseMonthYear req.StartDate = .ok start) ∧
          parseEndDate req.EndDate = .error e)) →
      Service.Create repo newID req st = (.error e, st) ∧
      Service.Update repo id req st = (.error e, st)) := by
  rw [Service_Create_eq, Service_Update_eq]
  constructor
  · intro start endPtr h1 h2
    simp only [h1, h2, true_and]
    intro existing h3
    simp only [h3]
  · rintro e (h1 | ⟨⟨start, h1⟩, h2⟩)
    · simp only [h1, and_self]
    · simp only [h1, h2, and_self]

/-- A witness of amended C10: `exampleBadInput` has valid dates, and `Create` hands the store
a record with its empty name and its price -5. -/
theorem Create_Update_validate_dates_only_witness :
    parseMonthYear exampleBadInput.StartDate = .ok (Date 2024 7 1 0 0 0 0) ∧
    parseEndDate exampleBadInput.EndDate = .ok none ∧
    Service.Create (pgRepo Time.zero) ⟨9⟩ exampleBadInput [] =
      (pgRepo Time.zero).Create
        { ID := ⟨9⟩, ServiceName := "", Price := -5, UserID := ⟨7⟩,
          StartDate := Date 2024 7 1 0 0 0 0, EndDate := none,
          CreatedAt := Time.zero, UpdatedAt := Time.zero } [] :=
  ⟨by decide, by decide,
    ((Create_Update_validate_dates_only (pgRepo Time.zero) ⟨9⟩ ⟨9⟩ exampleBadInput []).1
      (Date 2024 7 1 0 0 0 0) none (by decide) (by decide)).1⟩

/-! ## C11: degenerate intervals -/

theorem Time.before_of_not_before_of_before {a b c : Time} (h1 : b.Before a = false)
    (h2 : b.Before c = true) : a.Before c = true := by
  rw [← Bool.not_eq_true] at h1
  simp only [Time.Before, Bool.or_eq_true, Bool.and_eq_true, decide_eq_true_eq, beq_iff_eq]
    at h1 h2 ⊢
  omega

/-- C11. A degenerate interval contributes zero: for every window `F`, `T` and every record
whose `end_date` is present and strictly before its `start_date`, both first-of-month, the
loop body of `Total` leaves every value of the accumulator (a 64-bit `int`) as it is, so the
record contributes 0 whatever its price. -/
theorem contribution_zero_of_degenerate (F T : Time) (r : Subscription) (e : Time)
    (hE : r.EndDate = some e) (hs : r.StartDate.FirstOfMonth) (he : e.FirstOfMonth)
    (hlt : e.Before r.StartDate = true) :
    contribution F T r = 0 ∧ (∀ acc : Int, IsInt64 acc → totalStep F T acc r = acc) ∧
      totalLoop F T [r] = 0 := by
  have hm : monthsCharged F T r = 0 := by
    have hidx := (Time.before_iff_monthIndex_lt he hs).1 hlt
    simp only [monthIndex] at hidx
    unfold monthsCharged
    simp only [hE]
    by_cases c1 : e.Before T = true
    · simp only [c1, if_true, Time.After]
      by_cases c2 : (e.Before F || T.Before r.StartDate) = true
      · simp only [c2, if_true]
      · simp only [c2, if_false, Bool.false_eq_true]
        have c3 : r.StartDate.Before F = false := by
          cases h : r.StartDate.Before F with
          | false => rfl
          | true =>
            have := Time.before_trans hlt h
            simp only [this, Bool.true_or, not_true_eq_false] at c2
        simp only [c3, Bool.false_eq_true, if_false, monthsBetweenInclusive]
        split
        · rfl
        · omega
    · have c1f : e.Before T = false := by simpa using c1
      have c4 : T.Before r.StartDate = true := Time.before_of_not_before_of_before c1f hlt
      simp only [c1f, Bool.false_eq_true, if_false, Time.After, c4, Bool.or_true, if_true]
  have hw : wrap64 0 = 0 := by decide
  have hc : contribution F T r = 0 := by
    rw [contribution_eq_price_mul, hm, mul_zero, hw]
  refine ⟨hc, ?_, ?_⟩
  · intro acc hacc
    rw [totalStep_eq_wrap F T hacc, hm, mul_zero, add_zero, wrap64_of_isInt64 hacc]
  · rw [totalLoop_eq_wrap_sum_contribution]
    simp only [List.map_cons, List.map_nil, List.sum_cons, List.sum_nil, hc, add_zero, hw]

/-- A witness of C11: the record from March 2024 down to January 2024 contributes nothing
to the window January 2024 to December 2024. -/
theorem contribution_zero_of_degenerate_witness :
    exampleSubDegenerate.EndDate = some (Date 2024 1 1 0 0 0 0) ∧
    exampleSubDegenerate.StartDate.FirstOfMonth ∧ (Date 2024 1 1 0 0 0 0).FirstOfMonth ∧
    (Date 2024 1 1 0 0 0 0).Before exampleSubDegenerate.StartDate = true ∧
    contribution (Date 2024 1 1 0 0 0 0) (Date 2024 12 1 0 0 0 0) exampleSubDegenerate = 0 :=
  ⟨rfl, by decide, by decide, by decide,
    (contribution_zero_of_degenerate (Date 2024 1 1 0 0 0 0) (Date 2024 12 1 0 0 0 0)
      exampleSubDegenerate (Date 2024 1 1 0 0 0 0) rfl (by decide) (by decide) (by decide)).1⟩

/-! ## C12: the page query and the count query of List -/

/-- C12. In `SubscriptionRepository.List`, for every combination of present and absent
filters, the page query and the count query carry the identical `WHERE` clause: `WHERE 1=1`
followed by exactly one fragment per present filter in the order user_id, service_name, from,
to, the fragment at position `i` using the placeholder `$i`, for `i` from 1 to the number
`n` of present filters; the bind values are the values of these filters in the same order,
so the `i`-th argument belongs to the fragment that uses `$i`; the limit and the offset appear
in the page query only, after `ORDER BY created_at DESC`, and the count query and the
arguments do not depend on them. -/
theorem listQueries_share_predicate_and_binds (f : ListFilters) :
    (listQueries f).base =
        pageHead ++ whereFragments (filterEntries f) ++ " ORDER BY created_at DESC" ++
          (" LIMIT " ++ toString f.Limit ++ " OFFSET " ++ toString f.Offset) ∧
    (listQueries f).countBase = countHead ++ whereFragments (filterEntries f) ∧
    (listQueries f).args = (filterEntries f).map Prod.snd ∧
    (filterEntries f).map Prod.fst =
      [FilterKind.userID, FilterKind.serviceName, FilterKind.fromDate, FilterKind.toDate].filter
        (fun k => (filterValue f k).isSome) ∧
    (∀ p ∈ filterEntries f, filterValue f p.1 = some p.2) ∧
    (listQueries f).args.length =
      f.UserID.isSome.toNat + f.ServiceName.isSome.toNat + f.From.isSome.toNat +
        f.To.isSome.toNat ∧
    (listQueries f).idx = ((listQueries f).args.length : Int) + 1 ∧
    ∀ l o : Int,
      (listQueries { f with Limit := l, Offset := o }).countBase = (listQueries f).countBase ∧
      (listQueries { f with Limit := l, Offset := o }).args = (listQueries f).args := by
  have hmem : ∀ p ∈ filterEntries f, filterValue f p.1 = some p.2 := by
    intro p hp
    obtain ⟨k, -, hk⟩ := List.mem_filterMap.1 hp
    cases hv : filterValue f k with
    | none =>
      rw [hv] at hk
      cases hk
    | some v =>
      rw [hv] at hk
      simp only [Option.map_some', Option.some.injEq] at hk
      subst hk
      exact hv
  refine ⟨?_, ?_, ?_, ?_, hmem, ?_, ?_, ?_⟩ <;>
    obtain ⟨u, n, fr, t, l, o⟩ := f <;>
    cases u <;> cases n <;> cases fr <;> cases t <;>
    first
      | rfl
      | decide
      | (intro l1 o1; exact ⟨rfl, rfl⟩)

/-- A witness of C12 on the filters service_name and to: two fragments with `$1` and `$2`,
two arguments in the same order, the same clause in both queries. -/
theorem listQueries_share_predicate_and_binds_witness :
    (FilterKind.toDate, Arg.time (Date 2024 3 1 0 0 0 0)) ∈ filterEntries exampleFiltersTwo ∧
    filterValue exampleFiltersTwo FilterKind.toDate = some (Arg.time (Date 2024 3 1 0 0 0 0)) ∧
    whereFragments (filterEntries exampleFiltersTwo) =
      " AND service_name = $1 AND start_date <= $2" ∧
    (listQueries exampleFiltersTwo).countBase =
      countHead ++ whereFragments (filterEntries exampleFiltersTwo) ∧
    (listQueries exampleFiltersTwo).base =
      pageHead ++ whereFragments (filterEntries exampleFiltersTwo) ++
        " ORDER BY created_at DESC" ++ (" LIMIT " ++ toString (2 : Int) ++ " OFFSET " ++
          toString (4 : Int)) ∧
    (listQueries exampleFiltersTwo).args = [Arg.text "A", Arg.time (Date 2024 3 1 0 0 0 0)] ∧
    (listQueries exampleFiltersTwo).countBase =
      "SELECT count(1) FROM subscriptions WHERE 1=1 AND service_name = $1 AND start_date <= $2" :=
  ⟨by decide,
    (listQueries_share_predicate_and_binds exampleFiltersTwo).2.2.2.2.1
      (FilterKind.toDate, Arg.time (Date 2024 3 1 0 0 0 0)) (by decide),
    by decide,
    (listQueries_share_predicate_and_binds exampleFiltersTwo).2.1,
    (listQueries_share_predicate_and_binds exampleFiltersTwo).1,
    by decide, by decide⟩

end SubscriptionService
